import Mathlib

/-!
Verification development for the study-buddy application core: the per-user
study-state store (`StudyState` durable object), the study-session workflow's
mastery/repetition arithmetic, and the quiz-generation workflow's
validation/fallback logic.

Modelling conventions:
* JavaScript numbers are modelled as `Option ℚ` where the arithmetic can leave
  the finite numbers (division), with `none` standing for a non-finite result
  (`NaN` or an infinity; in every path exercised here the offending division is
  `0 / 0`, which is `NaN`).  Fields and quantities that stay finite along every
  code path (times, durations, points) are plain `ℚ`.
* JavaScript objects used as string-keyed maps are association lists with
  JS object semantics: updating an existing key keeps its position, a fresh key
  is appended at the end, lookup returns the first (unique) binding.
* Enumerations (`status`, `difficulty`, question `type`, activity `type`) are
  kept as strings, as in the source.
-/

/-- JS addition lifted to possibly-non-finite numbers (`NaN` propagates). -/
def jsAdd : Option ℚ → Option ℚ → Option ℚ
  | some a, some b => some (a + b)
  | _, _ => none

/-- JS multiplication lifted to possibly-non-finite numbers (`NaN` propagates). -/
def jsMul : Option ℚ → Option ℚ → Option ℚ
  | some a, some b => some (a * b)
  | _, _ => none

/-- JS division: division by zero leaves the finite numbers (`0/0` is `NaN`,
otherwise an infinity), modelled as `none`; `NaN` operands propagate. -/
def jsDiv : Option ℚ → Option ℚ → Option ℚ
  | some a, some b => if b = 0 then none else some (a / b)
  | _, _ => none

/-- `Math.min` with a finite first argument: `Math.min (c, NaN) = NaN`. -/
def jsMin (c : ℚ) : Option ℚ → Option ℚ
  | some a => some (min c a)
  | none => none

/-- `String.prototype.toLowerCase`, modelled as per-character lowering over the
string's character list. -/
def lowerStr (s : String) : String := String.mk (s.data.map Char.toLower)

/-- Lookup in a JS string-keyed object modelled as an association list. -/
def alookup {α : Type} : List (String × α) → String → Option α
  | [], _ => none
  | p :: rest, k => if p.1 = k then some p.2 else alookup rest k

/-- JS object property write: update an existing key in place, else append. -/
def aset {α : Type} : List (String × α) → String → α → List (String × α)
  | [], k, v => [(k, v)]
  | p :: rest, k, v => if p.1 = k then (k, v) :: rest else p :: aset rest k v

/-- `ActivityRecord` from `types.ts`: the optional `score` field is present only
on quiz records and stores the (possibly non-finite) percentage. -/
structure ActivityRecord where
  type : String
  topic : String
  timestamp : ℚ
  score : Option (Option ℚ)
  deriving DecidableEq, Repr

/-- `StudySession` from `types.ts`. -/
structure StudySession where
  id : String
  topic : String
  duration : ℚ
  difficulty : String
  startTime : ℚ
  endTime : Option ℚ
  status : String
  deriving DecidableEq, Repr

/-- `ChatMessage` from `types.ts`. -/
structure ChatMessageE where
  role : String
  content : String
  timestamp : ℚ
  deriving DecidableEq, Repr

/-- `QuizQuestion` from `types.ts`. -/
structure QuizQuestionE where
  id : String
  question : String
  type : String
  options : Option (List String)
  correctAnswer : String
  explanation : String
  points : ℚ
  deriving DecidableEq, Repr

/-- `Quiz` from `types.ts`. -/
structure Quiz where
  id : String
  topic : String
  difficulty : String
  questions : List QuizQuestionE
  createdAt : ℚ
  deriving DecidableEq, Repr

/-- `QuizResult` from `types.ts`; `percentage` is `(score / maxScore) * 100`,
which is non-finite (`none`) when `maxScore = 0`. -/
structure QuizResultE where
  quizId : String
  score : ℚ
  maxScore : ℚ
  percentage : Option ℚ
  answers : List (String × String)
  completedAt : ℚ
  timeSpent : ℚ
  deriving DecidableEq, Repr

/-- `TopicProgress` from `types.ts`; `masteryLevel` and `quizAverage` can be
contaminated by a non-finite percentage, hence `Option ℚ`. -/
structure TopicProgress where
  topic : String
  masteryLevel : Option ℚ
  timeSpent : ℚ
  sessionsCount : ℕ
  quizAverage : Option ℚ
  lastStudied : ℚ
  deriving DecidableEq, Repr

/-- `ProgressData` from `types.ts`. -/
structure ProgressData where
  userId : String
  totalStudyTime : ℚ
  totalSessions : ℕ
  totalQuizzes : ℕ
  averageScore : Option ℚ
  currentStreak : ℕ
  longestStreak : ℕ
  topicsStudied : List TopicProgress
  recentActivity : List ActivityRecord
  deriving DecidableEq, Repr

/-- `SpacedRepetitionItem` from `types.ts`. -/
structure SpacedRepetitionItem where
  topic : String
  nextReview : ℚ
  interval : ℚ
  easeFactor : ℚ
  repetitions : ℕ
  deriving DecidableEq, Repr

/-- `UserState` from `types.ts`, the state owned by one `StudyState` instance. -/
structure UserState where
  userId : String
  sessions : List (String × StudySession)
  chatHistories : List (String × List ChatMessageE)
  quizzes : List (String × Quiz)
  quizResults : List QuizResultE
  progress : ProgressData
  spacedRepetitionQueue : List SpacedRepetitionItem
  deriving DecidableEq, Repr

/-- `StudyState.createDefaultState`. -/
def createDefaultState : UserState :=
  { userId := "default-user"
    sessions := []
    chatHistories := []
    quizzes := []
    quizResults := []
    progress :=
      { userId := "default-user"
        totalStudyTime := 0
        totalSessions := 0
        totalQuizzes := 0
        averageScore := some 0
        currentStreak := 0
        longestStreak := 0
        topicsStudied := []
        recentActivity := [] }
    spacedRepetitionQueue := [] }

/-- `StudyState.createSession`: store the session, bump `totalSessions`,
prepend a "session" activity stamped with the session's `startTime`, truncate
the activity list to 50 entries (`slice(0, 50)`). -/
def createSession (s : UserState) (sess : StudySession) : UserState :=
  let act : ActivityRecord :=
    { type := "session", topic := sess.topic, timestamp := sess.startTime, score := none }
  { s with
    sessions := aset s.sessions sess.id sess
    progress :=
      { s.progress with
        totalSessions := s.progress.totalSessions + 1
        recentActivity := (act :: s.progress.recentActivity).take 50 } }

/-- First `TopicProgress` entry whose topic matches, as `Array.prototype.find`. -/
def findTopic : List TopicProgress → String → Option TopicProgress
  | [], _ => none
  | t :: rest, topic => if t.topic = topic then some t else findTopic rest topic

/-- Replace the first `TopicProgress` entry whose topic matches (the source
mutates the object returned by `find` in place). -/
def updateFirstTopic : List TopicProgress → String → (TopicProgress → TopicProgress) →
    List TopicProgress
  | [], _, _ => []
  | t :: rest, topic, f =>
    if t.topic = topic then f t :: rest else t :: updateFirstTopic rest topic f

/-- The mastery recomputation shared by `updateTopicProgress` and
`updateTopicQuizAverage`: `Math.min(100, sessionsCount * 10 + quizAverage * 0.5)`. -/
def recomputeMastery (sessionsCount : ℕ) (quizAverage : Option ℚ) : Option ℚ :=
  jsMin 100 (jsAdd (some ((sessionsCount : ℚ) * 10)) (jsMul quizAverage (some (1 / 2))))

/-- The fresh entry `updateTopicProgress` pushes when the topic is new. -/
def newTopicProgress (topic : String) (now : ℚ) : TopicProgress :=
  { topic := topic
    masteryLevel := some 0
    timeSpent := 0
    sessionsCount := 0
    quizAverage := some 0
    lastStudied := now }

/-- The in-place mutation `updateTopicProgress` performs on the (found or
freshly pushed) entry: accumulate time, bump the session count, refresh
`lastStudied`, recompute the mastery level. -/
def bumpTopic (tp : TopicProgress) (duration now : ℚ) : TopicProgress :=
  let tp' :=
    { tp with
      timeSpent := tp.timeSpent + duration
      sessionsCount := tp.sessionsCount + 1
      lastStudied := now }
  { tp' with masteryLevel := recomputeMastery tp'.sessionsCount tp'.quizAverage }

/-- `StudyState.updateTopicProgress`. -/
def updateTopicProgress (p : ProgressData) (topic : String) (duration now : ℚ) :
    ProgressData :=
  match findTopic p.topicsStudied topic with
  | some _ =>
    { p with topicsStudied := updateFirstTopic p.topicsStudied topic (bumpTopic · duration now) }
  | none =>
    { p with topicsStudied := p.topicsStudied ++ [bumpTopic (newTopicProgress topic now) duration now] }

/-- `StudyState.completeSession`: unknown ids are a silent no-op; otherwise mark
the session completed, add its duration (minutes) to `totalStudyTime` and update
the topic's progress entry. -/
def completeSession (s : UserState) (sessionId : String) (now : ℚ) : UserState :=
  match alookup s.sessions sessionId with
  | none => s
  | some sess =>
    let sess' := { sess with status := "completed", endTime := some now }
    let duration := (now - sess.startTime) / 1000 / 60
    { s with
      sessions := aset s.sessions sessionId sess'
      progress :=
        updateTopicProgress
          { s.progress with totalStudyTime := s.progress.totalStudyTime + duration }
          sess.topic duration now }

/-- `StudyState.saveQuiz`: stores the quiz by id, no validation at all. -/
def saveQuiz (s : UserState) (quiz : Quiz) : UserState :=
  { s with quizzes := aset s.quizzes quiz.id quiz }

/-- `maxScore` as computed in `submitQuiz`: `questions.reduce((sum, q) => sum + q.points, 0)`. -/
def quizMaxScore (quiz : Quiz) : ℚ :=
  quiz.questions.foldl (fun sum q => sum + q.points) 0

/-- `score` as computed in `submitQuiz`: a question scores its points exactly
when the submitted answer for its id matches the correct answer
case-insensitively (a missing answer never matches). -/
def quizScore (quiz : Quiz) (answers : List (String × String)) : ℚ :=
  quiz.questions.foldl
    (fun sc q =>
      match alookup answers q.id with
      | some a => if lowerStr a = lowerStr q.correctAnswer then sc + q.points else sc
      | none => sc)
    0

/-- `StudyState.updateTopicQuizAverage`: if a progress entry for the topic
exists, recompute its quiz average as the mean percentage over all stored
results whose quiz has that topic, and recompute the mastery level; otherwise
do nothing.  The `score` parameter is unused, as in the source. -/
def updateTopicQuizAverage (s : UserState) (topic : String) (_score : Option ℚ) : UserState :=
  match findTopic s.progress.topicsStudied topic with
  | none => s
  | some _ =>
    let results := s.quizResults.filter fun r =>
      match alookup s.quizzes r.quizId with
      | some q => q.topic = topic
      | none => false
    let avg := jsDiv (results.foldl (fun sum r => jsAdd sum r.percentage) (some 0))
      (some results.length)
    { s with
      progress :=
        { s.progress with
          topicsStudied := updateFirstTopic s.progress.topicsStudied topic fun tp =>
            let tp' := { tp with quizAverage := avg }
            { tp' with masteryLevel := recomputeMastery tp'.sessionsCount tp'.quizAverage } } }

/-- `StudyState.submitQuiz`.  `none` is the 404 "Quiz not found" response, on
which no state is mutated.  On success: score the questions, push the result,
bump `totalQuizzes`, recompute `averageScore` over all stored results, prepend a
"quiz" activity (with no truncation), update the topic's quiz average. -/
def submitQuiz (s : UserState) (quizId : String) (answers : List (String × String))
    (now : ℚ) : Option (UserState × QuizResultE) :=
  match alookup s.quizzes quizId with
  | none => none
  | some quiz =>
    let score := quizScore quiz answers
    let maxScore := quizMaxScore quiz
    let result : QuizResultE :=
      { quizId := quizId
        score := score
        maxScore := maxScore
        percentage := jsMul (jsDiv (some score) (some maxScore)) (some 100)
        answers := answers
        completedAt := now
        timeSpent := 0 }
    let s1 := { s with quizResults := s.quizResults ++ [result] }
    let allScores := s1.quizResults.map (·.percentage)
    let act : ActivityRecord :=
      { type := "quiz", topic := quiz.topic, timestamp := now, score := some result.percentage }
    let s2 :=
      { s1 with
        progress :=
          { s1.progress with
            totalQuizzes := s1.progress.totalQuizzes + 1
            averageScore :=
              jsDiv (allScores.foldl jsAdd (some 0)) (some allScores.length)
            recentActivity := act :: s1.progress.recentActivity } }
    some (updateTopicQuizAverage s2 quiz.topic result.percentage, result)

/-- The store operations reachable through the session/quiz endpoints that
mutate progress data (chat writes do not touch `progress`). -/
inductive Op where
  | createSession (sess : StudySession)
  | completeSession (sessionId : String) (now : ℚ)
  | saveQuiz (quiz : Quiz)
  | submitQuiz (quizId : String) (answers : List (String × String)) (now : ℚ)
  deriving DecidableEq, Repr

/-- One store operation applied to the state; a failed `submitQuiz` (404) leaves
the state unchanged. -/
def stepOp (s : UserState) : Op → UserState
  | .createSession sess => createSession s sess
  | .completeSession sid now => completeSession s sid now
  | .saveQuiz quiz => saveQuiz s quiz
  | .submitQuiz qid answers now =>
    match submitQuiz s qid answers now with
    | some (s', _) => s'
    | none => s

/-- Run a sequence of store operations (the store serializes them per user). -/
def runOps (s : UserState) : List Op → UserState
  | [] => s
  | op :: rest => runOps (stepOp s op) rest

/-- Result of the study-session workflow's update-mastery step. -/
structure MasteryUpdate where
  previousLevel : ℚ
  newLevel : ℚ
  increase : ℚ
  deriving DecidableEq, Repr

/-- `StudySessionWorkflow.run`, step `update-mastery`: a flat session bonus of 5,
a time bonus of `Math.min(10, Math.floor(duration / 10))`, capped at 100. -/
def updateMasteryStep (previousLevel : ℚ) (duration : ℕ) : MasteryUpdate :=
  let sessionBonus : ℚ := 5
  let timeBonus : ℚ := min 10 ((duration / 10 : ℕ) : ℚ)
  let newMasteryLevel : ℚ := min 100 (previousLevel + sessionBonus + timeBonus)
  { previousLevel := previousLevel
    newLevel := newMasteryLevel
    increase := newMasteryLevel - previousLevel }

/-- Result of the study-session workflow's schedule-repetition step. -/
structure RepetitionSchedule where
  topic : String
  nextReview : ℚ
  intervalDays : ℕ
  masteryLevel : ℚ
  deriving DecidableEq, Repr

/-- `StudySessionWorkflow.run`, step `schedule-repetition`: interval table keyed
on the new mastery level, next review `intervalDays` days (in ms) from now. -/
def scheduleRepetitionStep (topic : String) (newLevel : ℚ) (now : ℚ) : RepetitionSchedule :=
  let intervalDays : ℕ :=
    if newLevel ≥ 80 then 7
    else if newLevel ≥ 60 then 3
    else if newLevel ≥ 40 then 2
    else 1
  { topic := topic
    nextReview := now + (intervalDays : ℚ) * 24 * 60 * 60 * 1000
    intervalDays := intervalDays
    masteryLevel := newLevel }

/-- A candidate question as decoded from model output: every field may be
absent (and string fields may be present but empty, which JS treats as falsy). -/
structure CandidateQuestion where
  id : Option String
  question : Option String
  type : Option String
  options : Option (List String)
  correctAnswer : Option String
  explanation : Option String
  points : Option ℚ
  deriving DecidableEq, Repr

/-- JS falsiness of an optional string field (absent or empty string). -/
def strFalsy : Option String → Bool
  | none => true
  | some s => s = ""

/-- JS falsiness of an optional numeric field (absent or zero). -/
def numFalsy : Option ℚ → Bool
  | none => true
  | some q => q = 0

/-- The required-field check of the validate-questions step:
`!q.question || !q.correctAnswer || !q.explanation` discards the candidate. -/
def candidateValid (q : CandidateQuestion) : Bool :=
  !(strFalsy q.question || strFalsy q.correctAnswer || strFalsy q.explanation)

/-- The record built for a kept candidate: synthetic id `q{n}` when the id is
falsy, type defaulting to short-answer, points defaulting to 10. -/
def validatedOf (q : CandidateQuestion) (n : ℕ) : QuizQuestionE :=
  { id := if strFalsy q.id then "q" ++ toString n else q.id.getD ""
    question := q.question.getD ""
    type := if strFalsy q.type then "short-answer" else q.type.getD ""
    options := q.options
    correctAnswer := q.correctAnswer.getD ""
    explanation := q.explanation.getD ""
    points := if numFalsy q.points then 10 else q.points.getD 0 }

/-- The loop body of the validate-questions step: skip invalid candidates, push
kept ones with `validated.length + 1` as the synthetic id number. -/
def validateLoop : List CandidateQuestion → List QuizQuestionE → List QuizQuestionE
  | [], validated => validated
  | q :: rest, validated =>
    if candidateValid q then
      validateLoop rest (validated ++ [validatedOf q (validated.length + 1)])
    else validateLoop rest validated

/-- `QuizGenerationWorkflow.run`, step `validate-questions`:
validate every candidate, then `slice(0, questionCount)`. -/
def validateQuestionsStep (generated : List CandidateQuestion) (questionCount : ℕ) :
    List QuizQuestionE :=
  (validateLoop generated []).take questionCount

/-- `QuizGenerationWorkflow.getFallbackQuestions`: `min(count, 5)` short-answer
questions cycling `concepts[i % concepts.length] || topic`.  (For an empty list
the JS index is `NaN`, hence `undefined`, hence the topic; here `i % 0 = i` and
`getD` yields the default, with the same outcome.) -/
def getFallbackQuestions (topic : String) (count : ℕ) (concepts : List String) :
    List QuizQuestionE :=
  (List.range (min count 5)).map fun i =>
    let selected := concepts.getD (i % concepts.length) ""
    let concept := if selected = "" then topic else selected
    { id := "q" ++ toString (i + 1)
      question := "Explain your understanding of " ++ concept ++ "."
      type := "short-answer"
      options := none
      correctAnswer := "Open-ended answer"
      explanation := "This tests your understanding of " ++ concept ++ "."
      points := 10 }

/-- View of a fully-populated question as a candidate (the fallback questions
flow into the validation step as plain objects). -/
def QuizQuestionE.toCandidate (q : QuizQuestionE) : CandidateQuestion :=
  { id := some q.id
    question := some q.question
    type := some q.type
    options := q.options
    correctAnswer := some q.correctAnswer
    explanation := some q.explanation
    points := some q.points }

/-- `QuizGenerationWorkflow.run`, step `generate-questions`, after the AI call:
`parsed` is the outcome of the balanced-brace extraction, JSON decode and
"questions"-array check on the raw model output (`none` on any failure,
including a failed AI call); on failure the step returns the deterministic
fallback.  The JSON decoding itself is an external oracle here. -/
def generateQuestionsStep (parsed : Option (List CandidateQuestion)) (topic : String)
    (questionCount : ℕ) (keyConcepts : List String) : List CandidateQuestion :=
  match parsed with
  | some qs => qs
  | none => (getFallbackQuestions topic questionCount keyConcepts).map QuizQuestionE.toCandidate

/-- The validation pass as the spec phrases it: filter out candidates missing a
question text, correct answer or explanation, and number the kept ones by their
1-based position among the validated questions (positions start after `n`). -/
def specValidate (n : ℕ) : List CandidateQuestion → List QuizQuestionE
  | [] => []
  | q :: rest =>
    if candidateValid q then validatedOf q (n + 1) :: specValidate (n + 1) rest
    else specValidate n rest

/-- Whether a submitted answer set hits a question (case-insensitive exact
match of the submitted answer for the question's id against the correct one). -/
def answerHit (answers : List (String × String)) (q : QuizQuestionE) : Bool :=
  match alookup answers q.id with
  | some a => lowerStr a = lowerStr q.correctAnswer
  | none => false

/-- The score as the claim describes it: the sum of the points of exactly those
questions whose submitted answer matches case-insensitively. -/
def specScore (quiz : Quiz) (answers : List (String × String)) : ℚ :=
  ((quiz.questions.filter (answerHit answers)).map (·.points)).sum

/-- The concept the claim says fallback question `i` (0-based) uses: the
`(i mod length)`-th element of the key-concept list, or the topic name when the
list is empty. -/
def claimFallbackConcept (topic : String) (concepts : List String) (i : ℕ) : String :=
  if concepts.isEmpty then topic else concepts.getD (i % concepts.length) ""

/-- The fallback concept as the code actually selects it: also the topic name
when the selected list element is the empty string. -/
def amendedFallbackConcept (topic : String) (concepts : List String) (i : ℕ) : String :=
  if concepts.getD (i % concepts.length) "" = "" then topic
  else concepts.getD (i % concepts.length) ""

/-- The mean percentage over all stored results belonging to quizzes of the
given topic, read off a state (the claim's description of `quizAverage`). -/
def topicMeanPercentage (s : UserState) (topic : String) : Option ℚ :=
  let rs := s.quizResults.filter fun r =>
    match alookup s.quizzes r.quizId with
    | some q => q.topic = topic
    | none => false
  jsDiv (rs.foldl (fun sum r => jsAdd sum r.percentage) (some 0)) (some rs.length)

/-- The mastery level recorded for a topic, if a progress entry exists. -/
def masteryOf (s : UserState) (topic : String) : Option ℚ :=
  (findTopic s.progress.topicsStudied topic).bind (·.masteryLevel)

/-- The number of sessions recorded for a topic (0 when no entry exists). -/
def sessionsCountOf (s : UserState) (topic : String) : ℕ :=
  match findTopic s.progress.topicsStudied topic with
  | some tp => tp.sessionsCount
  | none => 0

/-- The duration `completeSession` computes for a completion `(sessionId, now)`,
read off the starting state (session start times and topics are never changed
by later completions). -/
def completionDuration (s : UserState) (c : String × ℚ) : ℚ :=
  match alookup s.sessions c.1 with
  | some sess => (c.2 - sess.startTime) / 1000 / 60
  | none => 0

/-- Whether a completion targets a session of the given topic. -/
def completionOnTopic (s : UserState) (topic : String) (c : String × ℚ) : Bool :=
  match alookup s.sessions c.1 with
  | some sess => sess.topic = topic
  | none => false

/-- A well-formed stored quiz as the data model intends: nonnegative per-question
points and a positive total (§3: points are positive integers). -/
def QuizOk (q : Quiz) : Prop :=
  (∀ question ∈ q.questions, 0 ≤ question.points) ∧ 0 < quizMaxScore q

/-- The quizzes an operation sequence saves. -/
def savedQuizzes : List Op → List Quiz
  | [] => []
  | .saveQuiz q :: rest => q :: savedQuizzes rest
  | _ :: rest => savedQuizzes rest

/-- All quizzes saved along the sequence are well-formed. -/
def OpsOk (ops : List Op) : Prop :=
  ∀ q ∈ savedQuizzes ops, QuizOk q

/-- The wall-clock an operation carries (none for `saveQuiz`, which stamps
nothing into the activity list). -/
def opTime? : Op → Option ℚ
  | .createSession sess => some sess.startTime
  | .completeSession _ now => some now
  | .submitQuiz _ _ now => some now
  | .saveQuiz _ => none

/-- The operation sequence is chronological: each carried timestamp is at least
the previous one, starting from `t`. -/
def chronFromB (t : ℚ) : List Op → Bool
  | [] => true
  | op :: rest =>
    match opTime? op with
    | some u => decide (t ≤ u) && chronFromB u rest
    | none => chronFromB t rest

/-- `recentActivity` ordered most-recent-first: timestamps are non-increasing
from the head. -/
def MostRecentFirst (l : List ActivityRecord) : Prop :=
  List.Pairwise (fun a b => b.timestamp ≤ a.timestamp) l

/-- How many quiz submissions (successful or not) a sequence contains. -/
def submitCount : List Op → ℕ
  | [] => 0
  | .submitQuiz _ _ _ :: rest => submitCount rest + 1
  | _ :: rest => submitCount rest

lemma alookup_aset {α : Type} (m : List (String × α)) (k k' : String) (v : α) :
    alookup (aset m k v) k' = if k' = k then some v else alookup m k' := by
  induction m with
  | nil =>
    by_cases h : k' = k
    · simp [aset, alookup, h]
    · have h' : ¬ k = k' := fun he => h he.symm
      simp [aset, alookup, h, h']
  | cons p rest ih =>
    by_cases hpk : p.1 = k
    · by_cases hk' : k' = k
      · simp [aset, hpk, alookup, hk']
      · have h1 : ¬ k = k' := fun he => hk' he.symm
        have h2 : ¬ p.1 = k' := by
          rw [hpk]
          exact h1
        simp [aset, hpk, alookup, hk', h1, h2]
    · by_cases hpk' : p.1 = k'
      · have hne : ¬ k' = k := fun h => hpk (by rw [hpk']; exact h)
        simp [aset, alookup, hpk, hpk', hne]
      · simp [aset, alookup, hpk, hpk', ih]

lemma alookup_aset_isSome {α : Type} (m : List (String × α)) (k k' : String) (v : α)
    (h : (alookup m k').isSome) : (alookup (aset m k v) k').isSome := by
  rw [alookup_aset]
  by_cases hk : k' = k <;> simp [hk, h]

lemma findTopic_mem {ts : List TopicProgress} {topic : String} {tp : TopicProgress}
    (h : findTopic ts topic = some tp) : tp ∈ ts ∧ tp.topic = topic := by
  induction ts with
  | nil => simp [findTopic] at h
  | cons t rest ih =>
    by_cases ht : t.topic = topic
    · simp [findTopic, ht] at h
      subst h
      exact ⟨List.mem_cons_self _ _, ht⟩
    · simp [findTopic, ht] at h
      obtain ⟨hm, he⟩ := ih h
      exact ⟨List.mem_cons_of_mem _ hm, he⟩

lemma findTopic_updateFirstTopic_self {ts : List TopicProgress} {topic : String}
    {tp : TopicProgress} (f : TopicProgress → TopicProgress)
    (hf : ∀ tp, (f tp).topic = tp.topic) (h : findTopic ts topic = some tp) :
    findTopic (updateFirstTopic ts topic f) topic = some (f tp) := by
  induction ts with
  | nil => simp [findTopic] at h
  | cons t rest ih =>
    by_cases ht : t.topic = topic
    · simp [findTopic, ht] at h
      subst h
      have hft : (f t).topic = topic := by rw [hf t, ht]
      simp [updateFirstTopic, findTopic, ht, hft]
    · simp [findTopic, updateFirstTopic, ht] at h ⊢
      exact ih h

lemma findTopic_updateFirstTopic_ne {ts : List TopicProgress} {topic other : String}
    (f : TopicProgress → TopicProgress) (hf : ∀ tp, (f tp).topic = tp.topic)
    (hne : other ≠ topic) :
    findTopic (updateFirstTopic ts topic f) other = findTopic ts other := by
  have hto : ¬ topic = other := fun h => hne h.symm
  induction ts with
  | nil => simp [updateFirstTopic]
  | cons t rest ih =>
    by_cases ht : t.topic = topic
    · have h1 : ¬ (f t).topic = other := by
        rw [hf t, ht]
        exact hto
      have h2 : ¬ t.topic = other := by
        rw [ht]
        exact hto
      simp [updateFirstTopic, findTopic, ht, h1, h2, hto]
    · by_cases htoo : t.topic = other
      · simp [updateFirstTopic, findTopic, ht, htoo, hne]
      · simp [updateFirstTopic, findTopic, ht, htoo, ih]

lemma mem_updateFirstTopic {ts : List TopicProgress} {topic : String}
    {f : TopicProgress → TopicProgress} {tp' : TopicProgress}
    (h : tp' ∈ updateFirstTopic ts topic f) :
    tp' ∈ ts ∨ ∃ tp ∈ ts, tp' = f tp := by
  induction ts with
  | nil => simp [updateFirstTopic] at h
  | cons t rest ih =>
    by_cases ht : t.topic = topic
    · simp [updateFirstTopic, ht] at h
      rcases h with h | h
      · exact Or.inr ⟨t, List.mem_cons_self _ _, h⟩
      · exact Or.inl (List.mem_cons_of_mem _ h)
    · simp [updateFirstTopic, ht] at h
      rcases h with h | h
      · exact Or.inl (by simp [h])
      · rcases ih h with h' | ⟨tp, hm, he⟩
        · exact Or.inl (List.mem_cons_of_mem _ h')
        · exact Or.inr ⟨tp, List.mem_cons_of_mem _ hm, he⟩

lemma findTopic_append_some {ts : List TopicProgress} {topic : String} {tp : TopicProgress}
    (x : TopicProgress) (h : findTopic ts topic = some tp) :
    findTopic (ts ++ [x]) topic = some tp := by
  induction ts with
  | nil => simp [findTopic] at h
  | cons t rest ih =>
    by_cases ht : t.topic = topic <;> simp [findTopic, ht] at h ⊢
    · exact h
    · exact ih h

lemma findTopic_append_none {ts : List TopicProgress} {topic : String} (x : TopicProgress)
    (h : findTopic ts topic = none) :
    findTopic (ts ++ [x]) topic = if x.topic = topic then some x else none := by
  induction ts with
  | nil => simp [findTopic]
  | cons t rest ih =>
    by_cases ht : t.topic = topic <;> simp [findTopic, ht] at h ⊢
    exact ih h

lemma foldl_add_points (l : List QuizQuestionE) (a : ℚ) :
    l.foldl (fun sum q => sum + q.points) a = a + (l.map (·.points)).sum := by
  induction l generalizing a with
  | nil => simp
  | cons q rest ih =>
    simp only [List.foldl_cons, List.map_cons, List.sum_cons, ih]
    ring

lemma quizMaxScore_eq (quiz : Quiz) :
    quizMaxScore quiz = (quiz.questions.map (·.points)).sum := by
  simpa [quizMaxScore] using foldl_add_points quiz.questions 0

lemma foldl_score (answers : List (String × String)) (l : List QuizQuestionE) (a : ℚ) :
    l.foldl
      (fun sc q =>
        match alookup answers q.id with
        | some x => if lowerStr x = lowerStr q.correctAnswer then sc + q.points else sc
        | none => sc) a
    = a + ((l.filter (answerHit answers)).map (·.points)).sum := by
  induction l generalizing a with
  | nil => simp
  | cons q rest ih =>
    rcases h : alookup answers q.id with _ | x
    · have hhit : answerHit answers q = false := by simp [answerHit, h]
      simp only [List.foldl_cons, h, List.filter_cons, hhit]
      simpa using ih a
    · by_cases hl : lowerStr x = lowerStr q.correctAnswer
      · have hhit : answerHit answers q = true := by simp [answerHit, h, hl]
        simp only [List.foldl_cons, h, hl, if_true, List.filter_cons, hhit]
        simp only [ih, List.map_cons, List.sum_cons]
        ring
      · have hhit : answerHit answers q = false := by simp [answerHit, h, hl]
        simp only [List.foldl_cons, h, hl, if_false, List.filter_cons, hhit]
        simpa using ih a

lemma quizScore_eq_specScore (quiz : Quiz) (answers : List (String × String)) :
    quizScore quiz answers = specScore quiz answers := by
  simpa [quizScore, specScore] using foldl_score answers quiz.questions 0

lemma foldl_jsAdd_somes (rs : List QuizResultE) (ps : List ℚ) (a : ℚ)
    (h : rs.map (·.percentage) = ps.map some) :
    rs.foldl (fun sum r => jsAdd sum r.percentage) (some a) = some (a + ps.sum) := by
  induction rs generalizing ps a with
  | nil =>
    have : ps = [] := by
      cases ps with
      | nil => rfl
      | cons p ps' => simp at h
    subst this
    simp
  | cons r rest ih =>
    cases ps with
    | nil => simp at h
    | cons p ps' =>
      simp only [List.map_cons, List.cons.injEq] at h
      obtain ⟨hp, hrest⟩ := h
      simp only [List.foldl_cons, hp]
      have hja : jsAdd (some a) (some p) = some (a + p) := rfl
      rw [hja, ih _ _ hrest, List.sum_cons, add_assoc]

lemma foldl_jsAdd_bounds (rs : List QuizResultE) (a : ℚ)
    (h : ∀ r ∈ rs, ∃ p, r.percentage = some p ∧ 0 ≤ p ∧ p ≤ 100) :
    ∃ t, rs.foldl (fun sum r => jsAdd sum r.percentage) (some a) = some t ∧
      a ≤ t ∧ t ≤ a + 100 * rs.length := by
  induction rs generalizing a with
  | nil => exact ⟨a, by simp⟩
  | cons r rest ih =>
    obtain ⟨p, hp, hp0, hp100⟩ := h r (List.mem_cons_self _ _)
    obtain ⟨t, ht, hat, hbound⟩ := ih (a + p) (fun r' hr' => h r' (List.mem_cons_of_mem _ hr'))
    have hja : jsAdd (some a) (some p) = some (a + p) := rfl
    refine ⟨t, ?_, by linarith, ?_⟩
    · simp only [List.foldl_cons, hp]
      rw [hja]
      exact ht
    · have hlen : (((r :: rest).length : ℚ)) = (rest.length : ℚ) + 1 := by
        push_cast [List.length_cons]
        ring
      rw [hlen]
      linarith

instance (l : List ActivityRecord) : Decidable (MostRecentFirst l) :=
  inferInstanceAs
    (Decidable (List.Pairwise (fun a b : ActivityRecord => b.timestamp ≤ a.timestamp) l))

/-- The result record `submitQuiz` builds for a found quiz. -/
def submitResult (quizId : String) (quiz : Quiz) (answers : List (String × String))
    (now : ℚ) : QuizResultE :=
  { quizId := quizId
    score := quizScore quiz answers
    maxScore := quizMaxScore quiz
    percentage := jsMul (jsDiv (some (quizScore quiz answers)) (some (quizMaxScore quiz)))
      (some 100)
    answers := answers
    completedAt := now
    timeSpent := 0 }

/-- The state `submitQuiz` builds before the topic-average update: result pushed,
`totalQuizzes` bumped, `averageScore` recomputed over all stored results, "quiz"
activity prepended with no truncation. -/
def submitMidState (s : UserState) (quiz : Quiz) (r : QuizResultE) (now : ℚ) : UserState :=
  { s with
    quizResults := s.quizResults ++ [r]
    progress :=
      { s.progress with
        totalQuizzes := s.progress.totalQuizzes + 1
        averageScore :=
          jsDiv (((s.quizResults ++ [r]).map (·.percentage)).foldl jsAdd (some 0))
            (some ((s.quizResults ++ [r]).map (·.percentage)).length)
        recentActivity :=
          { type := "quiz", topic := quiz.topic, timestamp := now,
            score := some r.percentage } :: s.progress.recentActivity } }

lemma submitQuiz_none (s : UserState) (quizId : String) (answers : List (String × String))
    (now : ℚ) (h : alookup s.quizzes quizId = none) :
    submitQuiz s quizId answers now = none := by
  simp [submitQuiz, h]

lemma submitQuiz_some (s : UserState) (quizId : String) (quiz : Quiz)
    (answers : List (String × String)) (now : ℚ)
    (h : alookup s.quizzes quizId = some quiz) :
    submitQuiz s quizId answers now =
      some (updateTopicQuizAverage
          (submitMidState s quiz (submitResult quizId quiz answers now) now) quiz.topic
          (submitResult quizId quiz answers now).percentage,
        submitResult quizId quiz answers now) := by
  simp [submitQuiz, h, submitResult, submitMidState]

lemma updateTopicProgress_recentActivity (p : ProgressData) (topic : String)
    (duration now : ℚ) :
    (updateTopicProgress p topic duration now).recentActivity = p.recentActivity := by
  rcases h : findTopic p.topicsStudied topic with _ | tp <;> simp [updateTopicProgress, h]

lemma updateTopicProgress_totalStudyTime (p : ProgressData) (topic : String)
    (duration now : ℚ) :
    (updateTopicProgress p topic duration now).totalStudyTime = p.totalStudyTime := by
  rcases h : findTopic p.topicsStudied topic with _ | tp <;> simp [updateTopicProgress, h]

lemma updateTopicProgress_averageScore (p : ProgressData) (topic : String)
    (duration now : ℚ) :
    (updateTopicProgress p topic duration now).averageScore = p.averageScore := by
  rcases h : findTopic p.topicsStudied topic with _ | tp <;> simp [updateTopicProgress, h]

lemma updateTopicProgress_totalQuizzes (p : ProgressData) (topic : String)
    (duration now : ℚ) :
    (updateTopicProgress p topic duration now).totalQuizzes = p.totalQuizzes := by
  rcases h : findTopic p.topicsStudied topic with _ | tp <;> simp [updateTopicProgress, h]

lemma completeSession_recentActivity (s : UserState) (sid : String) (now : ℚ) :
    (completeSession s sid now).progress.recentActivity = s.progress.recentActivity := by
  rcases h : alookup s.sessions sid with _ | sess <;>
    simp [completeSession, h, updateTopicProgress_recentActivity]

lemma completeSession_quizzes (s : UserState) (sid : String) (now : ℚ) :
    (completeSession s sid now).quizzes = s.quizzes := by
  rcases h : alookup s.sessions sid with _ | sess <;> simp [completeSession, h]

lemma completeSession_quizResults (s : UserState) (sid : String) (now : ℚ) :
    (completeSession s sid now).quizResults = s.quizResults := by
  rcases h : alookup s.sessions sid with _ | sess <;> simp [completeSession, h]

lemma completeSession_averageScore (s : UserState) (sid : String) (now : ℚ) :
    (completeSession s sid now).progress.averageScore = s.progress.averageScore := by
  rcases h : alookup s.sessions sid with _ | sess <;>
    simp [completeSession, h, updateTopicProgress_averageScore]

lemma completeSession_sessions_view (s : UserState) (sid : String) (now : ℚ) (k : String) :
    (alookup (completeSession s sid now).sessions k).map (fun sess => (sess.topic, sess.startTime))
      = (alookup s.sessions k).map (fun sess => (sess.topic, sess.startTime)) := by
  rcases h : alookup s.sessions sid with _ | sess
  · simp [completeSession, h]
  · by_cases hk : k = sid
    · subst hk
      simp [completeSession, h, alookup_aset]
    · simp [completeSession, h, alookup_aset, hk]

lemma updateTopicQuizAverage_eq_none (s : UserState) (topic : String) (sc : Option ℚ)
    (h : findTopic s.progress.topicsStudied topic = none) :
    updateTopicQuizAverage s topic sc = s := by
  simp [updateTopicQuizAverage, h]

/-- The in-place mutation `updateTopicQuizAverage` performs on the found entry:
store the recomputed average and recompute the mastery level from it. -/
def quizAvgUpdater (avg : Option ℚ) (tp : TopicProgress) : TopicProgress :=
  { tp with
    quizAverage := avg
    masteryLevel := recomputeMastery tp.sessionsCount avg }

lemma updateTopicQuizAverage_topics_found (s : UserState) (topic : String) (sc : Option ℚ)
    (tp : TopicProgress) (h : findTopic s.progress.topicsStudied topic = some tp) :
    (updateTopicQuizAverage s topic sc).progress.topicsStudied
      = updateFirstTopic s.progress.topicsStudied topic
          (quizAvgUpdater (topicMeanPercentage s topic)) := by
  simp only [updateTopicQuizAverage, h]
  rfl

lemma updateTopicQuizAverage_sessions (s : UserState) (topic : String) (sc : Option ℚ) :
    (updateTopicQuizAverage s topic sc).sessions = s.sessions := by
  rcases h : findTopic s.progress.topicsStudied topic with _ | tp <;>
    simp [updateTopicQuizAverage, h]

lemma updateTopicQuizAverage_quizzes (s : UserState) (topic : String) (sc : Option ℚ) :
    (updateTopicQuizAverage s topic sc).quizzes = s.quizzes := by
  rcases h : findTopic s.progress.topicsStudied topic with _ | tp <;>
    simp [updateTopicQuizAverage, h]

lemma updateTopicQuizAverage_quizResults (s : UserState) (topic : String) (sc : Option ℚ) :
    (updateTopicQuizAverage s topic sc).quizResults = s.quizResults := by
  rcases h : findTopic s.progress.topicsStudied topic with _ | tp <;>
    simp [updateTopicQuizAverage, h]

lemma updateTopicQuizAverage_recentActivity (s : UserState) (topic : String) (sc : Option ℚ) :
    (updateTopicQuizAverage s topic sc).progress.recentActivity
      = s.progress.recentActivity := by
  rcases h : findTopic s.progress.topicsStudied topic with _ | tp <;>
    simp [updateTopicQuizAverage, h]

lemma updateTopicQuizAverage_averageScore (s : UserState) (topic : String) (sc : Option ℚ) :
    (updateTopicQuizAverage s topic sc).progress.averageScore
      = s.progress.averageScore := by
  rcases h : findTopic s.progress.topicsStudied topic with _ | tp <;>
    simp [updateTopicQuizAverage, h]

lemma updateTopicQuizAverage_totalQuizzes (s : UserState) (topic : String) (sc : Option ℚ) :
    (updateTopicQuizAverage s topic sc).progress.totalQuizzes
      = s.progress.totalQuizzes := by
  rcases h : findTopic s.progress.topicsStudied topic with _ | tp <;>
    simp [updateTopicQuizAverage, h]

lemma topicMeanPercentage_congr (s₁ s₂ : UserState) (topic : String)
    (hq : s₁.quizzes = s₂.quizzes) (hr : s₁.quizResults = s₂.quizResults) :
    topicMeanPercentage s₁ topic = topicMeanPercentage s₂ topic := by
  simp [topicMeanPercentage, hq, hr]

/-- C6: for every prior mastery level `p ∈ [0,100]` and session duration
`d ∈ [5,120]` minutes, the update-mastery step computes
`newLevel = min(100, p + 5 + min(10, ⌊d/10⌋))` with `increase = newLevel − p`,
and the schedule-repetition step returns `intervalDays = 7` if `newLevel ≥ 80`,
else 3 if `≥ 60`, else 2 if `≥ 40`, else 1, with
`nextReview = now + intervalDays` days in milliseconds. -/
theorem studySessionWorkflow_mastery_and_schedule (p : ℚ) (d : ℕ) (topic : String) (now : ℚ)
    (_hp0 : 0 ≤ p) (_hp1 : p ≤ 100) (_hd0 : 5 ≤ d) (_hd1 : d ≤ 120) :
    (updateMasteryStep p d).newLevel = min 100 (p + 5 + min 10 ((d / 10 : ℕ) : ℚ))
    ∧ (updateMasteryStep p d).increase = (updateMasteryStep p d).newLevel - p
    ∧ (scheduleRepetitionStep topic (updateMasteryStep p d).newLevel now).intervalDays
        = (if (updateMasteryStep p d).newLevel ≥ 80 then 7
           else if (updateMasteryStep p d).newLevel ≥ 60 then 3
           else if (updateMasteryStep p d).newLevel ≥ 40 then 2 else 1)
    ∧ (scheduleRepetitionStep topic (updateMasteryStep p d).newLevel now).nextReview
        = now + ((scheduleRepetitionStep topic
            (updateMasteryStep p d).newLevel now).intervalDays : ℚ) * (24 * 60 * 60 * 1000)
    ∧ (scheduleRepetitionStep topic (updateMasteryStep p d).newLevel now).masteryLevel
        = (updateMasteryStep p d).newLevel := by
  refine ⟨rfl, rfl, rfl, ?_, rfl⟩
  simp only [scheduleRepetitionStep]
  ring

/-- Witness for C6 at the spec's own scenario: previous level 0, a 30-minute
session, so the new level is `0 + 5 + min(10, 3) = 8` and, being below 40, the
repetition interval is one day. -/
theorem studySessionWorkflow_mastery_and_schedule_witness :
    ((0:ℚ) ≤ 0 ∧ (0:ℚ) ≤ 100 ∧ 5 ≤ 30 ∧ 30 ≤ 120)
    ∧ (updateMasteryStep 0 30).newLevel = 8
    ∧ (updateMasteryStep 0 30).increase = 8
    ∧ (scheduleRepetitionStep "Physics" (updateMasteryStep 0 30).newLevel 0).intervalDays = 1
    ∧ (scheduleRepetitionStep "Physics" (updateMasteryStep 0 30).newLevel 0).nextReview
        = 86400000 := by
  obtain ⟨h1, h2, h3, h4, h5⟩ :=
    studySessionWorkflow_mastery_and_schedule 0 30 "Physics" 0 le_rfl (by norm_num)
      (by norm_num) (by norm_num)
  have hnl : (updateMasteryStep 0 30).newLevel = 8 := by
    rw [h1]
    norm_num [min_def]
  have hint : (scheduleRepetitionStep "Physics" (updateMasteryStep 0 30).newLevel 0).intervalDays
      = 1 := by
    rw [h3, hnl]
    norm_num
  refine ⟨⟨le_rfl, by norm_num, by norm_num, by norm_num⟩, hnl, ?_, hint, ?_⟩
  · rw [h2, hnl]
    norm_num
  · rw [h4, hint]
    norm_num

/-- C7: an unknown quiz id makes `submitQuiz` fail with the not-found error and
leave the state untouched, while an unknown session id makes `completeSession`
succeed as a silent no-op; both lookups failing differ only in that reported
outcome. -/
theorem notFound_asymmetry (s : UserState) (quizId sessionId : String)
    (answers : List (String × String)) (now now' : ℚ)
    (hq : alookup s.quizzes quizId = none) (hs : alookup s.sessions sessionId = none) :
    submitQuiz s quizId answers now = none
    ∧ completeSession s sessionId now' = s :=
  ⟨submitQuiz_none s quizId answers now hq, by simp [completeSession, hs]⟩

/-- Witness for C7 on the fresh default state and an id that was never stored. -/
theorem notFound_asymmetry_witness :
    alookup createDefaultState.quizzes "missing" = none
    ∧ alookup createDefaultState.sessions "missing" = none
    ∧ submitQuiz createDefaultState "missing" [] 0 = none
    ∧ completeSession createDefaultState "missing" 0 = createDefaultState := by
  obtain ⟨h1, h2⟩ := notFound_asymmetry createDefaultState "missing" "missing" [] 0 0 rfl rfl
  exact ⟨rfl, rfl, h1, h2⟩

/-- A quiz with no questions; `saveQuiz` stores it without any validation. -/
def emptyQuiz : Quiz :=
  { id := "quiz-empty", topic := "Topology", difficulty := "beginner",
    questions := [], createdAt := 0 }

/-- A candidate question missing its explanation, which the validation step
discards; discarding every candidate leaves an empty validated list. -/
def noExplanationCandidate : CandidateQuestion :=
  { id := some "q1", question := some "State the definition.", type := some "short-answer",
    options := none, correctAnswer := some "n/a", explanation := none, points := some 10 }

/-- C10: an empty quiz is accepted by `saveQuiz` (and the validation step can
produce an empty question list), and submitting it computes `maxScore = 0` and
divides by it, so the percentage is not a (finite) number and the recomputed
`averageScore` is contaminated as well. -/
theorem submitQuiz_empty_quiz_division_by_zero :
    (saveQuiz createDefaultState emptyQuiz).quizzes = [("quiz-empty", emptyQuiz)]
    ∧ validateQuestionsStep [noExplanationCandidate] 3 = []
    ∧ ((submitQuiz (saveQuiz createDefaultState emptyQuiz) "quiz-empty" [] 5).map
        fun p => (p.2.maxScore, p.2.percentage, p.1.progress.averageScore))
      = some (0, none, none) := by
  decide

/-- C9 counterexample: with key-concept list `[""]` the claim's selection rule
asks question 0 about the empty-string concept, but the code's `|| topic`
fallback uses the topic name instead. -/
theorem fallback_empty_concept_counterexample :
    (getFallbackQuestions "Chemistry" 1 [""]).map (fun q => q.question)
      = ["Explain your understanding of Chemistry."]
    ∧ "Explain your understanding of " ++ claimFallbackConcept "Chemistry" [""] 0 ++ "."
      = "Explain your understanding of ."
    ∧ ¬ (getFallbackQuestions "Chemistry" 1 [""]).map (fun q => q.question)
      = ["Explain your understanding of " ++ claimFallbackConcept "Chemistry" [""] 0 ++ "."] := by
  decide

/-- C9 (amended): on parse failure the generate-questions step returns the
deterministic fallback: exactly `min(count, 5)` short-answer questions worth 10
points, question `i` (0-based, id `q{i+1}`) asking about the `(i mod length)`-th
key concept — falling back to the topic name when the list is empty or the
selected concept is the empty string. -/
theorem generateQuestions_fallback_spec (topic : String) (count : ℕ) (concepts : List String) :
    generateQuestionsStep none topic count concepts
      = (getFallbackQuestions topic count concepts).map QuizQuestionE.toCandidate
    ∧ (getFallbackQuestions topic count concepts).length = min count 5
    ∧ ∀ i, i < min count 5 →
        (getFallbackQuestions topic count concepts)[i]?
          = some
            { id := "q" ++ toString (i + 1)
              question := "Explain your understanding of "
                ++ amendedFallbackConcept topic concepts i ++ "."
              type := "short-answer"
              options := none
              correctAnswer := "Open-ended answer"
              explanation := "This tests your understanding of "
                ++ amendedFallbackConcept topic concepts i ++ "."
              points := 10 } := by
  refine ⟨rfl, by simp [getFallbackQuestions], ?_⟩
  intro i hi
  simp [getFallbackQuestions, List.getElem?_range hi, amendedFallbackConcept]

/-- Witness for C9's amended fallback: two questions requested for "Math" with
concepts `["sets", ""]`; question 1 cycles to the empty concept and therefore
asks about the topic name. -/
theorem generateQuestions_fallback_spec_witness :
    (getFallbackQuestions "Math" 2 ["sets", ""]).length = min 2 5
    ∧ (getFallbackQuestions "Math" 2 ["sets", ""])[0]?
      = some
        { id := "q1", question := "Explain your understanding of sets."
          type := "short-answer", options := none
          correctAnswer := "Open-ended answer"
          explanation := "This tests your understanding of sets.", points := 10 }
    ∧ (getFallbackQuestions "Math" 2 ["sets", ""])[1]?
      = some
        { id := "q2", question := "Explain your understanding of Math."
          type := "short-answer", options := none
          correctAnswer := "Open-ended answer"
          explanation := "This tests your understanding of Math.", points := 10 } := by
  obtain ⟨h1, h2, h3⟩ := generateQuestions_fallback_spec "Math" 2 ["sets", ""]
  refine ⟨h2, ?_, ?_⟩
  · rw [h3 0 (by norm_num)]
    decide
  · rw [h3 1 (by norm_num)]
    decide

lemma validateLoop_eq (qs : List CandidateQuestion) (acc : List QuizQuestionE) :
    validateLoop qs acc = acc ++ specValidate acc.length qs := by
  induction qs generalizing acc with
  | nil => simp [validateLoop, specValidate]
  | cons q rest ih =>
    by_cases hv : candidateValid q
    · have hlen : (acc ++ [validatedOf q (acc.length + 1)]).length = acc.length + 1 := by
        simp
      simp only [validateLoop, specValidate, hv, if_true, ih, hlen, List.append_assoc,
        List.singleton_append]
    · simp only [validateLoop, specValidate, hv, if_false, ih, Bool.false_eq_true]

/-- C8: the validate-questions step equals the spec's filter-then-number pass —
discard candidates missing a question text, correct answer, or explanation;
give the n-th kept candidate (1-based) the synthetic id `q{n}` when its id is
falsy; default the type to short-answer and the points to 10 — truncated to the
requested count and never padded (its length is the minimum of the count and
the number of validated candidates). -/
theorem validateQuestions_spec (generated : List CandidateQuestion) (questionCount : ℕ) :
    validateQuestionsStep generated questionCount
      = (specValidate 0 generated).take questionCount
    ∧ (validateQuestionsStep generated questionCount).length
        = min questionCount (specValidate 0 generated).length
    ∧ (∀ q : CandidateQuestion, ∀ n : ℕ,
        candidateValid q = true →
          (strFalsy q.id = true → (validatedOf q n).id = "q" ++ toString n)
          ∧ (q.type = none → (validatedOf q n).type = "short-answer")
          ∧ (q.points = none → (validatedOf q n).points = 10)) := by
  have hloop : validateQuestionsStep generated questionCount
      = (specValidate 0 generated).take questionCount := by
    have := validateLoop_eq generated []
    simp only [List.nil_append, List.length_nil] at this
    simp [validateQuestionsStep, this]
  refine ⟨hloop, ?_, ?_⟩
  · rw [hloop, List.length_take]
  · intro q n _hv
    refine ⟨?_, ?_, ?_⟩
    · intro hid
      simp [validatedOf, hid]
    · intro hty
      simp [validatedOf, hty, strFalsy]
    · intro hpt
      simp [validatedOf, hpt, numFalsy]

/-- A candidate missing its question text, discarded by validation. -/
def noQuestionCandidate : CandidateQuestion :=
  { id := some "qx", question := none, type := some "true-false",
    options := none, correctAnswer := some "True", explanation := some "E",
    points := some 15 }

/-- A kept candidate lacking id, type and points, so all defaults fire. -/
def bareCandidate : CandidateQuestion :=
  { id := none, question := some "Why does it work?", type := none,
    options := none, correctAnswer := some "Because", explanation := some "E",
    points := none }

/-- Witness for C8: one invalid and one bare candidate; the survivor is numbered
`q1` and receives the short-answer type and 10 points. -/
theorem validateQuestions_spec_witness :
    candidateValid bareCandidate = true
    ∧ strFalsy bareCandidate.id = true
    ∧ validateQuestionsStep [noQuestionCandidate, bareCandidate] 5
        = (specValidate 0 [noQuestionCandidate, bareCandidate]).take 5
    ∧ (validatedOf bareCandidate 1).id = "q" ++ toString 1
    ∧ (validatedOf bareCandidate 1).type = "short-answer"
    ∧ (validatedOf bareCandidate 1).points = 10
    ∧ validateQuestionsStep [noQuestionCandidate, bareCandidate] 5
        = [validatedOf bareCandidate 1] := by
  obtain ⟨h1, h2, h3⟩ := validateQuestions_spec [noQuestionCandidate, bareCandidate] 5
  obtain ⟨hid, hty, hpt⟩ := h3 bareCandidate 1 (by decide)
  exact ⟨by decide, by decide, h1, hid (by decide), hty (by decide), hpt (by decide), by decide⟩

lemma foldl_jsAdd_map_some (qs : List ℚ) (a : ℚ) :
    (qs.map some).foldl jsAdd (some a) = some (a + qs.sum) := by
  induction qs generalizing a with
  | nil => simp
  | cons q rest ih =>
    simp only [List.map_cons, List.foldl_cons]
    have hja : jsAdd (some a) (some q) = some (a + q) := rfl
    rw [hja, ih, List.sum_cons, add_assoc]

/-- C3: submitting a stored quiz (with positive total points, so the percentage
is defined — the degenerate total is the subject of the division-by-zero
hazard) scores exactly the case-insensitively matched questions, reports
`maxScore` as the sum of all question points and the percentage as
`100·score/maxScore`, appends the result, increments `totalQuizzes`, and
recomputes `averageScore` as the mean percentage over all stored results. -/
theorem submitQuiz_scoring (s : UserState) (quizId : String) (quiz : Quiz)
    (answers : List (String × String)) (now : ℚ) (ps : List ℚ)
    (hq : alookup s.quizzes quizId = some quiz)
    (hmax : 0 < quizMaxScore quiz)
    (hfin : s.quizResults.map (·.percentage) = ps.map some) :
    ∃ s' r, submitQuiz s quizId answers now = some (s', r)
      ∧ r.score = specScore quiz answers
      ∧ r.maxScore = (quiz.questions.map (·.points)).sum
      ∧ r.percentage = some (100 * r.score / r.maxScore)
      ∧ s'.quizResults = s.quizResults ++ [r]
      ∧ s'.progress.totalQuizzes = s.progress.totalQuizzes + 1
      ∧ s'.progress.averageScore
          = some ((ps.sum + 100 * r.score / r.maxScore) / (ps.length + 1)) := by
  have hne : quizMaxScore quiz ≠ 0 := ne_of_gt hmax
  have hsub := submitQuiz_some s quizId quiz answers now hq
  set r := submitResult quizId quiz answers now with hr
  have hscore : r.score = quizScore quiz answers := rfl
  have hms : r.maxScore = quizMaxScore quiz := rfl
  have hperc : r.percentage = some (100 * r.score / r.maxScore) := by
    show jsMul (jsDiv (some (quizScore quiz answers)) (some (quizMaxScore quiz))) (some 100)
      = some (100 * r.score / r.maxScore)
    rw [hscore, hms]
    simp only [jsDiv, jsMul, if_neg hne]
    congr 1
    ring
  refine ⟨_, r, hsub, ?_, ?_, hperc, ?_, ?_, ?_⟩
  · rw [hscore, quizScore_eq_specScore]
  · rw [hms, quizMaxScore_eq]
  · rw [updateTopicQuizAverage_quizResults]
    rfl
  · rw [updateTopicQuizAverage_totalQuizzes]
    rfl
  · rw [updateTopicQuizAverage_averageScore]
    show jsDiv (((s.quizResults ++ [r]).map (·.percentage)).foldl jsAdd (some 0))
        (some (((s.quizResults ++ [r]).map (·.percentage)).length : ℚ))
      = some ((ps.sum + 100 * r.score / r.maxScore) / (ps.length + 1))
    have hmap : (s.quizResults ++ [r]).map (·.percentage)
        = (ps ++ [100 * r.score / r.maxScore]).map some := by
      rw [List.map_append, hfin, List.map_append]
      simp [hperc]
    rw [hmap, foldl_jsAdd_map_some]
    have hlen : (((ps ++ [100 * r.score / r.maxScore]).map some).length : ℚ)
        = (ps.length : ℚ) + 1 := by
      simp
    rw [hlen]
    have hden : ((ps.length : ℚ) + 1) ≠ 0 := by positivity
    simp only [jsDiv, if_neg hden]
    congr 1
    rw [List.sum_append, List.sum_singleton, zero_add]

/-- First question of the spec's worked scoring scenario: 10 points, answer "A". -/
def demoQ1 : QuizQuestionE :=
  { id := "q1", question := "Pick A", type := "multiple-choice",
    options := some ["A", "B", "C", "D"], correctAnswer := "A",
    explanation := "E1", points := 10 }

/-- Second question of the scenario: 15 points, answer "True". -/
def demoQ2 : QuizQuestionE :=
  { id := "q2", question := "True or false?", type := "true-false",
    options := none, correctAnswer := "True", explanation := "E2", points := 15 }

/-- The spec's 2-question quiz. -/
def demoQuiz : Quiz :=
  { id := "quiz-two", topic := "Logic", difficulty := "beginner",
    questions := [demoQ1, demoQ2], createdAt := 0 }

/-- The scenario's submitted answers: a case-insensitive hit on q1, a miss on q2. -/
def demoAnswers : List (String × String) := [("q1", "a"), ("q2", "False")]

/-- Witness for C3 at the spec's scenario: score 10, maxScore 25, percentage 40,
and (as the only stored result) averageScore 40. -/
theorem submitQuiz_scoring_witness :
    alookup (saveQuiz createDefaultState demoQuiz).quizzes "quiz-two" = some demoQuiz
    ∧ (0:ℚ) < quizMaxScore demoQuiz
    ∧ ∃ s' r, submitQuiz (saveQuiz createDefaultState demoQuiz) "quiz-two" demoAnswers 9
          = some (s', r)
        ∧ r.score = 10 ∧ r.maxScore = 25 ∧ r.percentage = some 40
        ∧ s'.progress.totalQuizzes = 1 ∧ s'.progress.averageScore = some 40 := by
  have h1 : alookup (saveQuiz createDefaultState demoQuiz).quizzes "quiz-two"
      = some demoQuiz := by decide
  have hm25 : quizMaxScore demoQuiz = 25 := by
    simp [quizMaxScore, demoQuiz, demoQ1, demoQ2]
    norm_num
  have hmax : (0:ℚ) < quizMaxScore demoQuiz := by
    rw [hm25]
    norm_num
  have hfil : demoQuiz.questions.filter (answerHit demoAnswers) = [demoQ1] := by decide
  have hs10 : specScore demoQuiz demoAnswers = 10 := by
    simp [specScore, hfil, demoQ1]
  have hmsum : (demoQuiz.questions.map (·.points)).sum = 25 := by
    simp [demoQuiz, demoQ1, demoQ2]
    norm_num
  obtain ⟨s', r, hsub, hsc, hmx, hpc, _hqr, htq, hav⟩ :=
    submitQuiz_scoring (saveQuiz createDefaultState demoQuiz) "quiz-two" demoQuiz
      demoAnswers 9 [] h1 hmax rfl
  have hrs : r.score = 10 := by rw [hsc, hs10]
  have hrm : r.maxScore = 25 := by rw [hmx, hmsum]
  refine ⟨h1, hmax, s', r, hsub, hrs, hrm, ?_, ?_, ?_⟩
  · rw [hpc, hrs, hrm]
    norm_num
  · rw [htq]
    rfl
  · rw [hav, hrs, hrm]
    norm_num

/-- C4 (amended): a successful submission recomputes the quiz topic's
`quizAverage` (as the mean percentage over all stored results belonging to
quizzes of that topic, the fresh result included) and its `masteryLevel` — but
only when a `TopicProgress` entry for that topic already exists; when none
exists the submission still succeeds and `topicsStudied` is left unchanged, so
no entry is created. -/
theorem submitQuiz_topic_average (s : UserState) (quizId : String) (quiz : Quiz)
    (answers : List (String × String)) (now : ℚ)
    (hq : alookup s.quizzes quizId = some quiz) :
    ∃ s' r, submitQuiz s quizId answers now = some (s', r)
      ∧ (∀ tp, findTopic s.progress.topicsStudied quiz.topic = some tp →
          ∃ tp', findTopic s'.progress.topicsStudied quiz.topic = some tp'
            ∧ tp'.quizAverage = topicMeanPercentage s' quiz.topic
            ∧ tp'.masteryLevel = recomputeMastery tp'.sessionsCount tp'.quizAverage
            ∧ tp'.sessionsCount = tp.sessionsCount
            ∧ tp'.timeSpent = tp.timeSpent)
      ∧ (findTopic s.progress.topicsStudied quiz.topic = none →
          s'.progress.topicsStudied = s.progress.topicsStudied) := by
  have hsub := submitQuiz_some s quizId quiz answers now hq
  set r := submitResult quizId quiz answers now with hr
  set mid := submitMidState s quiz r now with hmid
  have hmidtop : mid.progress.topicsStudied = s.progress.topicsStudied := rfl
  refine ⟨_, r, hsub, ?_, ?_⟩
  · intro tp htp
    have htpm : findTopic mid.progress.topicsStudied quiz.topic = some tp := by
      rw [hmidtop]
      exact htp
    have hupd := updateTopicQuizAverage_topics_found mid quiz.topic r.percentage tp htpm
    have hftop : ∀ tp', (quizAvgUpdater (topicMeanPercentage mid quiz.topic) tp').topic
        = tp'.topic := fun _ => rfl
    have hfind :
        findTopic (updateTopicQuizAverage mid quiz.topic r.percentage).progress.topicsStudied
          quiz.topic = some (quizAvgUpdater (topicMeanPercentage mid quiz.topic) tp) := by
      rw [hupd]
      exact findTopic_updateFirstTopic_self _ hftop htpm
    refine ⟨quizAvgUpdater (topicMeanPercentage mid quiz.topic) tp, hfind, ?_, rfl, rfl, rfl⟩
    show topicMeanPercentage mid quiz.topic
      = topicMeanPercentage (updateTopicQuizAverage mid quiz.topic r.percentage) quiz.topic
    exact topicMeanPercentage_congr mid _ quiz.topic
      (updateTopicQuizAverage_quizzes mid quiz.topic r.percentage).symm
      (updateTopicQuizAverage_quizResults mid quiz.topic r.percentage).symm
  · intro hnone
    have hmnone : findTopic mid.progress.topicsStudied quiz.topic = none := by
      rw [hmidtop]
      exact hnone
    rw [updateTopicQuizAverage_eq_none mid quiz.topic r.percentage hmnone]
    exact hmidtop

/-- A one-question quiz on a topic that has no progress entry yet. -/
def soloQuiz : Quiz :=
  { id := "quiz-solo", topic := "Algebra", difficulty := "beginner",
    questions := [{ id := "q1", question := "2+2?", type := "short-answer",
                    options := none, correctAnswer := "4", explanation := "E",
                    points := 10 }],
    createdAt := 0 }

/-- C4 counterexample: with no `TopicProgress` entry for the quiz's topic, the
submission succeeds (a result is returned) yet `topicsStudied` stays empty — no
quizAverage or masteryLevel is recorded for the topic, against the claim's
"including states where no TopicProgress entry for T exists yet". -/
theorem submitQuiz_no_topic_entry_counterexample :
    findTopic (saveQuiz createDefaultState soloQuiz).progress.topicsStudied soloQuiz.topic = none
    ∧ ((submitQuiz (saveQuiz createDefaultState soloQuiz) "quiz-solo" [("q1", "4")] 3).map
        fun p => p.1.progress.topicsStudied) = some [] := by
  decide

/-- The session whose completion creates the "Algebra" progress entry used by
the C4 witness. -/
def c4sess : StudySession :=
  { id := "s-alg", topic := "Algebra", duration := 1, difficulty := "beginner",
    startTime := 0, endTime := none, status := "active" }

/-- A state in which an "Algebra" entry exists (one completed 1-minute session)
and `soloQuiz`'s sibling quiz is stored. -/
def c4state : UserState :=
  saveQuiz (completeSession (createSession createDefaultState c4sess) "s-alg" 60000) soloQuiz

/-- The "Algebra" entry of `c4state`. -/
def c4tp : TopicProgress :=
  { topic := "Algebra", masteryLevel := some 10, timeSpent := 1, sessionsCount := 1,
    quizAverage := some 0, lastStudied := 60000 }

/-- Witness for C4's amended claim on a state where the topic entry exists. -/
theorem submitQuiz_topic_average_witness :
    alookup c4state.quizzes "quiz-solo" = some soloQuiz
    ∧ findTopic c4state.progress.topicsStudied soloQuiz.topic = some c4tp
    ∧ ∃ s' r, submitQuiz c4state "quiz-solo" [("q1", "4")] 70000 = some (s', r)
      ∧ ∃ tp', findTopic s'.progress.topicsStudied soloQuiz.topic = some tp'
        ∧ tp'.quizAverage = topicMeanPercentage s' soloQuiz.topic
        ∧ tp'.masteryLevel = recomputeMastery tp'.sessionsCount tp'.quizAverage
        ∧ tp'.sessionsCount = 1 := by
  have hq : alookup c4state.quizzes "quiz-solo" = some soloQuiz := by decide
  have hts : c4state.progress.topicsStudied = [c4tp] := by
    norm_num [c4state, c4sess, c4tp, saveQuiz, completeSession, createSession, alookup, aset,
      updateTopicProgress, findTopic, newTopicProgress, bumpTopic, recomputeMastery, jsMin,
      jsAdd, jsMul, createDefaultState, min_def]
  have hfind : findTopic c4state.progress.topicsStudied soloQuiz.topic = some c4tp := by
    rw [hts]
    simp [findTopic, c4tp, soloQuiz]
  obtain ⟨s', r, hsub, hfound, _⟩ :=
    submitQuiz_topic_average c4state "quiz-solo" soloQuiz [("q1", "4")] 70000 hq
  obtain ⟨tp', ha, hb, hc, hd, _⟩ := hfound c4tp hfind
  exact ⟨hq, hfind, s', r, hsub, tp', ha, hb, hc, by rw [hd]; rfl⟩

lemma updateTopicProgress_topics_found (p : ProgressData) (topic : String) (duration now : ℚ)
    (tp : TopicProgress) (h : findTopic p.topicsStudied topic = some tp) :
    (updateTopicProgress p topic duration now).topicsStudied
      = updateFirstTopic p.topicsStudied topic (bumpTopic · duration now) := by
  simp [updateTopicProgress, h]

lemma updateTopicProgress_topics_none (p : ProgressData) (topic : String) (duration now : ℚ)
    (h : findTopic p.topicsStudied topic = none) :
    (updateTopicProgress p topic duration now).topicsStudied
      = p.topicsStudied ++ [bumpTopic (newTopicProgress topic now) duration now] := by
  simp [updateTopicProgress, h]

/-- The session count a progress record stores for a topic (0 with no entry). -/
def sessionsCountP (p : ProgressData) (topic : String) : ℕ :=
  match findTopic p.topicsStudied topic with
  | some tp => tp.sessionsCount
  | none => 0

lemma sessionsCountOf_eq (s : UserState) (topic : String) :
    sessionsCountOf s topic = sessionsCountP s.progress topic := rfl

lemma sessionsCountP_updateTopicProgress (p : ProgressData) (topic T : String)
    (duration now : ℚ) :
    sessionsCountP (updateTopicProgress p topic duration now) T
      = sessionsCountP p T + (if T = topic then 1 else 0) := by
  rcases hf : findTopic p.topicsStudied topic with _ | tp
  · by_cases hT : T = topic
    · subst hT
      rw [sessionsCountP, updateTopicProgress_topics_none p T duration now hf,
        findTopic_append_none _ hf]
      have hx : (bumpTopic (newTopicProgress T now) duration now).topic = T := rfl
      simp [hx, sessionsCountP, hf, bumpTopic, newTopicProgress]
    · have hxt : ¬ (bumpTopic (newTopicProgress topic now) duration now).topic = T := by
        show ¬ topic = T
        exact fun he => hT he.symm
      rw [sessionsCountP, updateTopicProgress_topics_none p topic duration now hf]
      rcases hfT : findTopic p.topicsStudied T with _ | tpT
      · rw [findTopic_append_none _ hfT]
        simp [hxt, sessionsCountP, hfT, hT]
      · rw [findTopic_append_some _ hfT]
        simp [sessionsCountP, hfT, hT]
  · by_cases hT : T = topic
    · subst hT
      rw [sessionsCountP, updateTopicProgress_topics_found p T duration now tp hf,
        findTopic_updateFirstTopic_self (bumpTopic · duration now) (fun _ => rfl) hf]
      simp [sessionsCountP, hf, bumpTopic]
    · rw [sessionsCountP, updateTopicProgress_topics_found p topic duration now tp hf,
        findTopic_updateFirstTopic_ne (bumpTopic · duration now) (fun _ => rfl) hT]
      simp [sessionsCountP, hT]

lemma completeSession_totalStudyTime_some (s : UserState) (sid : String) (now : ℚ)
    (sess : StudySession) (h : alookup s.sessions sid = some sess) :
    (completeSession s sid now).progress.totalStudyTime
      = s.progress.totalStudyTime + (now - sess.startTime) / 1000 / 60 := by
  simp [completeSession, h, updateTopicProgress_totalStudyTime]

lemma completeSession_sessionsCount (s : UserState) (sid : String) (now : ℚ)
    (sess : StudySession) (h : alookup s.sessions sid = some sess) (T : String) :
    sessionsCountOf (completeSession s sid now) T
      = sessionsCountOf s T + (if T = sess.topic then 1 else 0) := by
  rw [sessionsCountOf_eq, sessionsCountOf_eq]
  show sessionsCountP (completeSession s sid now).progress T = _
  rw [show (completeSession s sid now).progress
      = updateTopicProgress
          { s.progress with
            totalStudyTime := s.progress.totalStudyTime + (now - sess.startTime) / 1000 / 60 }
          sess.topic ((now - sess.startTime) / 1000 / 60) now from by
    simp [completeSession, h]]
  rw [sessionsCountP_updateTopicProgress]
  rfl

lemma completeSession_sessions_isSome (s : UserState) (sid : String) (now : ℚ) (k : String) :
    (alookup (completeSession s sid now).sessions k).isSome
      = (alookup s.sessions k).isSome := by
  calc (alookup (completeSession s sid now).sessions k).isSome
      = ((alookup (completeSession s sid now).sessions k).map
          (fun sess => (sess.topic, sess.startTime))).isSome := (Option.isSome_map').symm
    _ = ((alookup s.sessions k).map (fun sess => (sess.topic, sess.startTime))).isSome := by
        rw [completeSession_sessions_view]
    _ = (alookup s.sessions k).isSome := Option.isSome_map'

lemma completionDuration_eq (s₁ s₂ : UserState) (c : String × ℚ)
    (h : (alookup s₁.sessions c.1).map (fun sess => (sess.topic, sess.startTime))
      = (alookup s₂.sessions c.1).map (fun sess => (sess.topic, sess.startTime))) :
    completionDuration s₁ c = completionDuration s₂ c := by
  rcases h₁ : alookup s₁.sessions c.1 with _ | a <;>
    rcases h₂ : alookup s₂.sessions c.1 with _ | b <;>
      rw [h₁, h₂] at h <;> simp at h <;> simp [completionDuration, h₁, h₂]
  rw [h.2]

lemma completionOnTopic_eq (s₁ s₂ : UserState) (T : String) (c : String × ℚ)
    (h : (alookup s₁.sessions c.1).map (fun sess => (sess.topic, sess.startTime))
      = (alookup s₂.sessions c.1).map (fun sess => (sess.topic, sess.startTime))) :
    completionOnTopic s₁ T c = completionOnTopic s₂ T c := by
  rcases h₁ : alookup s₁.sessions c.1 with _ | a <;>
    rcases h₂ : alookup s₂.sessions c.1 with _ | b <;>
      rw [h₁, h₂] at h <;> simp at h <;> simp [completionOnTopic, h₁, h₂]
  rw [h.1]

/-- C5: completing any sequence of stored sessions adds exactly the sum of the
computed minute durations `(now − startTime)/60000` to `totalStudyTime`, and
each topic's `sessionsCount` grows by exactly the number of completions whose
session has that topic. -/
theorem completeSessions_totals (s : UserState) (L : List (String × ℚ))
    (hex : ∀ c ∈ L, (alookup s.sessions c.1).isSome = true) :
    (runOps s (L.map fun c => Op.completeSession c.1 c.2)).progress.totalStudyTime
      = s.progress.totalStudyTime + (L.map (completionDuration s)).sum
    ∧ ∀ T, sessionsCountOf (runOps s (L.map fun c => Op.completeSession c.1 c.2)) T
        = sessionsCountOf s T + (L.filter (completionOnTopic s T)).length := by
  induction L generalizing s with
  | nil => simp [runOps]
  | cons c rest ih =>
    obtain ⟨sess, hsess⟩ := Option.isSome_iff_exists.mp (hex c (List.mem_cons_self _ _))
    have hview : ∀ k,
        (alookup (completeSession s c.1 c.2).sessions k).map
            (fun ss => (ss.topic, ss.startTime))
          = (alookup s.sessions k).map (fun ss => (ss.topic, ss.startTime)) :=
      fun k => completeSession_sessions_view s c.1 c.2 k
    have hex' : ∀ c' ∈ rest, (alookup (completeSession s c.1 c.2).sessions c'.1).isSome
        = true := by
      intro c' hc'
      rw [completeSession_sessions_isSome]
      exact hex c' (List.mem_cons_of_mem _ hc')
    obtain ⟨ihT, ihC⟩ := ih (completeSession s c.1 c.2) hex'
    have hrun : runOps s ((c :: rest).map fun c => Op.completeSession c.1 c.2)
        = runOps (completeSession s c.1 c.2) (rest.map fun c => Op.completeSession c.1 c.2) := by
      simp only [List.map_cons, runOps, stepOp]
    constructor
    · rw [hrun, ihT, completeSession_totalStudyTime_some s c.1 c.2 sess hsess]
      have hmap : rest.map (completionDuration (completeSession s c.1 c.2))
          = rest.map (completionDuration s) :=
        List.map_congr_left fun c' _ => completionDuration_eq _ _ c' (hview c'.1)
      rw [hmap]
      have hdc : completionDuration s c = (c.2 - sess.startTime) / 1000 / 60 := by
        simp [completionDuration, hsess]
      simp only [List.map_cons, List.sum_cons, hdc]
      ring
    · intro T
      rw [hrun, ihC T, completeSession_sessionsCount s c.1 c.2 sess hsess T]
      have hfil : rest.filter (completionOnTopic (completeSession s c.1 c.2) T)
          = rest.filter (completionOnTopic s T) :=
        List.filter_congr fun c' _ => completionOnTopic_eq _ _ T c' (hview c'.1)
      rw [hfil]
      by_cases hT : T = sess.topic
      · have hCT : completionOnTopic s T c = true := by
          simp [completionOnTopic, hsess, hT]
        simp only [List.filter_cons, hCT, if_true, List.length_cons, if_pos hT]
        omega
      · have hT' : ¬ sess.topic = T := fun he => hT he.symm
        have hCT : completionOnTopic s T c = false := by
          simp [completionOnTopic, hsess, hT']
        simp only [List.filter_cons, hCT, Bool.false_eq_true, if_false, if_neg hT]
        omega

/-- First demo session for the C5 witness: topic "X", started at t=0. -/
def c5sessA : StudySession :=
  { id := "s-x1", topic := "X", duration := 1, difficulty := "beginner",
    startTime := 0, endTime := none, status := "active" }

/-- Second demo session: topic "Y", started at t=60000. -/
def c5sessB : StudySession :=
  { id := "s-y1", topic := "Y", duration := 2, difficulty := "beginner",
    startTime := 60000, endTime := none, status := "active" }

/-- A state holding the two demo sessions. -/
def c5state : UserState := createSession (createSession createDefaultState c5sessA) c5sessB

/-- The two completions: after 1 minute and after 2 minutes respectively. -/
def c5comps : List (String × ℚ) := [("s-x1", 60000), ("s-y1", 180000)]

/-- Witness for C5: completing the two sessions adds 1 + 2 = 3 minutes of study
time, and topic "X" records exactly its one completion. -/
theorem completeSessions_totals_witness :
    (∀ c ∈ c5comps, (alookup c5state.sessions c.1).isSome = true)
    ∧ (runOps c5state (c5comps.map fun c => Op.completeSession c.1 c.2)).progress.totalStudyTime
        = c5state.progress.totalStudyTime + (c5comps.map (completionDuration c5state)).sum
    ∧ (c5comps.map (completionDuration c5state)).sum = 3
    ∧ sessionsCountOf (runOps c5state (c5comps.map fun c => Op.completeSession c.1 c.2)) "X"
        = sessionsCountOf c5state "X" + (c5comps.filter (completionOnTopic c5state "X")).length
    ∧ (c5comps.filter (completionOnTopic c5state "X")).length = 1 := by
  have hex : ∀ c ∈ c5comps, (alookup c5state.sessions c.1).isSome = true := by decide
  obtain ⟨h1, h2⟩ := completeSessions_totals c5state c5comps hex
  refine ⟨hex, h1, ?_, h2 "X", ?_⟩
  · norm_num [c5comps, completionDuration, c5state, c5sessA, c5sessB, createSession, aset,
      alookup, createDefaultState, show ¬ ("s-x1" : String) = "s-y1" from by decide,
      show ¬ ("s-y1" : String) = "s-x1" from by decide]
  · decide

lemma mostRecentFirst_cons {a : ActivityRecord} {l : List ActivityRecord}
    (h : ∀ b ∈ l, b.timestamp ≤ a.timestamp) (hl : MostRecentFirst l) :
    MostRecentFirst (a :: l) :=
  List.Pairwise.cons h hl

lemma mostRecentFirst_sublist {l₁ l₂ : List ActivityRecord} (h : l₁.Sublist l₂)
    (h₂ : MostRecentFirst l₂) : MostRecentFirst l₁ :=
  List.Pairwise.sublist h h₂

lemma runOps_activity_sorted : ∀ (ops : List Op) (t : ℚ) (s : UserState),
    chronFromB t ops = true →
    MostRecentFirst s.progress.recentActivity →
    (∀ a ∈ s.progress.recentActivity, a.timestamp ≤ t) →
    MostRecentFirst (runOps s ops).progress.recentActivity := by
  intro ops
  induction ops with
  | nil =>
    intro t s _ hs _
    simpa [runOps] using hs
  | cons op rest ih =>
    intro t s hc hs hb
    cases op with
    | createSession sess =>
      simp only [chronFromB, opTime?, Bool.and_eq_true, decide_eq_true_eq] at hc
      obtain ⟨htu, hcr⟩ := hc
      show MostRecentFirst (runOps (createSession s sess) rest).progress.recentActivity
      apply ih sess.startTime (createSession s sess) hcr
      · have hcons : MostRecentFirst
            ({ type := "session", topic := sess.topic, timestamp := sess.startTime,
               score := none } :: s.progress.recentActivity) :=
          mostRecentFirst_cons (fun b hbm => le_trans (hb b hbm) htu) hs
        exact mostRecentFirst_sublist (List.take_sublist _ _) hcons
      · intro a ham
        have hmem := List.take_subset _ _ ham
        rcases List.mem_cons.mp hmem with h | h
        · rw [h]
        · exact le_trans (hb a h) htu
    | completeSession sid now =>
      simp only [chronFromB, opTime?, Bool.and_eq_true, decide_eq_true_eq] at hc
      obtain ⟨htu, hcr⟩ := hc
      show MostRecentFirst (runOps (completeSession s sid now) rest).progress.recentActivity
      apply ih now (completeSession s sid now) hcr
      · rw [show (completeSession s sid now).progress.recentActivity
            = s.progress.recentActivity from completeSession_recentActivity s sid now]
        exact hs
      · rw [show (completeSession s sid now).progress.recentActivity
            = s.progress.recentActivity from completeSession_recentActivity s sid now]
        exact fun a ham => le_trans (hb a ham) htu
    | saveQuiz q =>
      simp only [chronFromB, opTime?] at hc
      show MostRecentFirst (runOps (saveQuiz s q) rest).progress.recentActivity
      exact ih t (saveQuiz s q) hc hs hb
    | submitQuiz qid answers now =>
      simp only [chronFromB, opTime?, Bool.and_eq_true, decide_eq_true_eq] at hc
      obtain ⟨htu, hcr⟩ := hc
      rcases hsq : alookup s.quizzes qid with _ | quiz
      · have hstep : stepOp s (Op.submitQuiz qid answers now) = s := by
          simp [stepOp, submitQuiz_none s qid answers now hsq]
        show MostRecentFirst
          (runOps (stepOp s (Op.submitQuiz qid answers now)) rest).progress.recentActivity
        rw [hstep]
        exact ih now s hcr hs (fun a ham => le_trans (hb a ham) htu)
      · have hstep : stepOp s (Op.submitQuiz qid answers now)
            = updateTopicQuizAverage
                (submitMidState s quiz (submitResult qid quiz answers now) now) quiz.topic
                (submitResult qid quiz answers now).percentage := by
          simp [stepOp, submitQuiz_some s qid quiz answers now hsq]
        have hact : (updateTopicQuizAverage
              (submitMidState s quiz (submitResult qid quiz answers now) now) quiz.topic
              (submitResult qid quiz answers now).percentage).progress.recentActivity
            = { type := "quiz", topic := quiz.topic, timestamp := now,
                score := some (submitResult qid quiz answers now).percentage }
              :: s.progress.recentActivity := by
          rw [updateTopicQuizAverage_recentActivity]
          rfl
        show MostRecentFirst
          (runOps (stepOp s (Op.submitQuiz qid answers now)) rest).progress.recentActivity
        rw [hstep]
        apply ih now _ hcr
        · rw [hact]
          exact mostRecentFirst_cons (fun b hbm => le_trans (hb b hbm) htu) hs
        · rw [hact]
          intro a ham
          rcases List.mem_cons.mp ham with h | h
          · rw [h]
          · exact le_trans (hb a h) htu

lemma runOps_activity_length : ∀ (ops : List Op) (s : UserState),
    (runOps s ops).progress.recentActivity.length
      ≤ max 50 s.progress.recentActivity.length + submitCount ops := by
  intro ops
  induction ops with
  | nil =>
    intro s
    simp only [runOps, submitCount]
    omega
  | cons op rest ih =>
    intro s
    cases op with
    | createSession sess =>
      have h1 := ih (createSession s sess)
      have hlen : (createSession s sess).progress.recentActivity.length
          = min 50 (s.progress.recentActivity.length + 1) := by
        simp [createSession, List.length_take]
        omega
      rw [hlen] at h1
      show (runOps (createSession s sess) rest).progress.recentActivity.length
        ≤ max 50 s.progress.recentActivity.length + submitCount rest
      omega
    | completeSession sid now =>
      have h1 := ih (completeSession s sid now)
      rw [completeSession_recentActivity] at h1
      exact h1
    | saveQuiz q =>
      exact ih (saveQuiz s q)
    | submitQuiz qid answers now =>
      rcases hsq : alookup s.quizzes qid with _ | quiz
      · have hstep : stepOp s (Op.submitQuiz qid answers now) = s := by
          simp [stepOp, submitQuiz_none s qid answers now hsq]
        have h1 := ih s
        show (runOps (stepOp s (Op.submitQuiz qid answers now)) rest).progress.recentActivity.length
          ≤ max 50 s.progress.recentActivity.length + (submitCount rest + 1)
        rw [hstep]
        omega
      · have hstep : stepOp s (Op.submitQuiz qid answers now)
            = updateTopicQuizAverage
                (submitMidState s quiz (submitResult qid quiz answers now) now) quiz.topic
                (submitResult qid quiz answers now).percentage := by
          simp [stepOp, submitQuiz_some s qid quiz answers now hsq]
        have h1 := ih (updateTopicQuizAverage
          (submitMidState s quiz (submitResult qid quiz answers now) now) quiz.topic
          (submitResult qid quiz answers now).percentage)
        have hact : (updateTopicQuizAverage
              (submitMidState s quiz (submitResult qid quiz answers now) now) quiz.topic
              (submitResult qid quiz answers now).percentage).progress.recentActivity.length
            = s.progress.recentActivity.length + 1 := by
          rw [updateTopicQuizAverage_recentActivity]
          rfl
        rw [hact] at h1
        show (runOps (stepOp s (Op.submitQuiz qid answers now)) rest).progress.recentActivity.length
          ≤ max 50 s.progress.recentActivity.length + (submitCount rest + 1)
        rw [hstep]
        omega

/-- C1 (amended): over any chronological operation sequence from the fresh
state, `recentActivity` stays ordered most-recent-first, and `createSession`
always leaves it at 50 entries or fewer — but `submitQuiz` prepends its "quiz"
activity without truncating, so the overall length is only bounded by 50 plus
the number of quiz submissions and can exceed 50. -/
theorem recentActivity_order_and_truncation (t : ℚ) (ops : List Op)
    (hchron : chronFromB t ops = true) :
    MostRecentFirst (runOps createDefaultState ops).progress.recentActivity
    ∧ (runOps createDefaultState ops).progress.recentActivity.length ≤ 50 + submitCount ops
    ∧ (∀ s : UserState, ∀ sess : StudySession,
        (createSession s sess).progress.recentActivity.length ≤ 50) := by
  refine ⟨?_, ?_, ?_⟩
  · exact runOps_activity_sorted ops t createDefaultState hchron List.Pairwise.nil
      (fun a ham => absurd ham (List.not_mem_nil a))
  · have h := runOps_activity_length ops createDefaultState
    have h0 : createDefaultState.progress.recentActivity.length = 0 := rfl
    rw [h0] at h
    omega
  · intro s sess
    have hlen : (createSession s sess).progress.recentActivity.length
        = min 50 (s.progress.recentActivity.length + 1) := by
      simp [createSession, List.length_take]
      omega
    omega

/-- The session used to fill `recentActivity` up to the 50-entry cap. -/
def fillerSession : StudySession :=
  { id := "s-fill", topic := "Filler", duration := 30, difficulty := "beginner",
    startTime := 1, endTime := none, status := "active" }

/-- The stored quiz whose submission pushes the activity list past 50. -/
def fillerQuiz : Quiz :=
  { id := "quiz-fill", topic := "Filler", difficulty := "beginner",
    questions := [{ id := "q1", question := "?", type := "short-answer", options := none,
                    correctAnswer := "ok", explanation := "E", points := 10 }],
    createdAt := 0 }

/-- C1 counterexample: 50 session creations fill `recentActivity` to the cap,
and one successful quiz submission — which prepends but never truncates —
leaves it at 51 entries, refuting "never contains more than 50 entries". -/
theorem recentActivity_exceeds_50_counterexample :
    (runOps createDefaultState
        (Op.saveQuiz fillerQuiz
          :: (List.replicate 50 (Op.createSession fillerSession)
            ++ [Op.submitQuiz "quiz-fill" [] 100]))).progress.recentActivity.length = 51
    ∧ ¬ (runOps createDefaultState
        (Op.saveQuiz fillerQuiz
          :: (List.replicate 50 (Op.createSession fillerSession)
            ++ [Op.submitQuiz "quiz-fill" [] 100]))).progress.recentActivity.length ≤ 50 := by
  decide

/-- The C1 witness sequence: one session creation at t=1, then a failing quiz
submission at t=5. -/
def w1ops : List Op :=
  [Op.createSession fillerSession, Op.submitQuiz "missing-quiz" [] 5]

/-- Witness for C1's amended claim on a small chronological sequence. -/
theorem recentActivity_order_and_truncation_witness :
    chronFromB 0 w1ops = true
    ∧ (MostRecentFirst (runOps createDefaultState w1ops).progress.recentActivity
      ∧ (runOps createDefaultState w1ops).progress.recentActivity.length
          ≤ 50 + submitCount w1ops
      ∧ (∀ s : UserState, ∀ sess : StudySession,
          (createSession s sess).progress.recentActivity.length ≤ 50))
    ∧ (runOps createDefaultState w1ops).progress.recentActivity.length = 1 := by
  exact ⟨by decide, recentActivity_order_and_truncation 0 w1ops (by decide), by decide⟩

/-- All stored quizzes (under any key) are well-formed. -/
def QuizzesOk (s : UserState) : Prop :=
  ∀ k quiz, alookup s.quizzes k = some quiz → QuizOk quiz

/-- Every stored result has a finite percentage in [0,100]. -/
def ResultsOk (s : UserState) : Prop :=
  ∀ r ∈ s.quizResults, ∃ p, r.percentage = some p ∧ 0 ≤ p ∧ p ≤ 100

/-- Every progress entry has a finite quiz average in [0,100] and a mastery
level equal to the recomputation formula applied to its own fields. -/
def TopicsOk (s : UserState) : Prop :=
  ∀ tp ∈ s.progress.topicsStudied, ∃ qa, tp.quizAverage = some qa ∧ 0 ≤ qa ∧ qa ≤ 100
    ∧ tp.masteryLevel = recomputeMastery tp.sessionsCount tp.quizAverage

/-- The state invariant maintained by the store operations (for well-formed
saved quizzes). -/
def StateInv (s : UserState) : Prop := QuizzesOk s ∧ ResultsOk s ∧ TopicsOk s

lemma recomputeMastery_some (sc : ℕ) (qa : ℚ) :
    recomputeMastery sc (some qa) = some (min 100 ((sc : ℚ) * 10 + qa * (1 / 2))) := rfl

lemma recomputeMastery_bounds (sc : ℕ) (qa : ℚ) (h0 : 0 ≤ qa) :
    ∃ m, recomputeMastery sc (some qa) = some m ∧ 0 ≤ m ∧ m ≤ 100 := by
  refine ⟨min 100 ((sc : ℚ) * 10 + qa * (1 / 2)), recomputeMastery_some sc qa, ?_,
    min_le_left _ _⟩
  have hn : (0:ℚ) ≤ (sc : ℚ) * 10 + qa * (1 / 2) :=
    add_nonneg (by positivity) (by linarith)
  exact le_min (by norm_num) hn

lemma recomputeMastery_mono (sc : ℕ) (qa : ℚ) :
    min 100 ((sc : ℚ) * 10 + qa * (1 / 2))
      ≤ min 100 (((sc + 1 : ℕ) : ℚ) * 10 + qa * (1 / 2)) := by
  apply min_le_min le_rfl
  push_cast
  linarith

lemma quizScore_bounds (quiz : Quiz) (answers : List (String × String))
    (hpts : ∀ q ∈ quiz.questions, 0 ≤ q.points) :
    0 ≤ quizScore quiz answers ∧ quizScore quiz answers ≤ quizMaxScore quiz := by
  rw [quizScore_eq_specScore, quizMaxScore_eq]
  simp only [specScore]
  constructor
  · apply List.sum_nonneg
    intro x hx
    obtain ⟨q, hq, rfl⟩ := List.mem_map.mp hx
    exact hpts q (List.mem_of_mem_filter hq)
  · apply List.Sublist.sum_le_sum
    · exact List.Sublist.map _ (List.filter_sublist _)
    · intro x hx
      obtain ⟨q, hq, rfl⟩ := List.mem_map.mp hx
      exact hpts q hq

lemma submitResult_percentage_ok (quizId : String) (quiz : Quiz)
    (answers : List (String × String)) (now : ℚ) (hok : QuizOk quiz) :
    ∃ p, (submitResult quizId quiz answers now).percentage = some p ∧ 0 ≤ p ∧ p ≤ 100 := by
  obtain ⟨hpts, hpos⟩ := hok
  obtain ⟨h0, hle⟩ := quizScore_bounds quiz answers hpts
  have hne : quizMaxScore quiz ≠ 0 := ne_of_gt hpos
  refine ⟨quizScore quiz answers / quizMaxScore quiz * 100, ?_, ?_, ?_⟩
  · show jsMul (jsDiv (some (quizScore quiz answers)) (some (quizMaxScore quiz))) (some 100)
      = _
    simp [jsDiv, jsMul, hne]
  · have hd : 0 ≤ quizScore quiz answers / quizMaxScore quiz := div_nonneg h0 (le_of_lt hpos)
    exact mul_nonneg hd (by norm_num)
  · have hd : quizScore quiz answers / quizMaxScore quiz ≤ 1 := (div_le_one hpos).mpr hle
    have := mul_le_mul_of_nonneg_right hd (by norm_num : (0:ℚ) ≤ 100)
    simpa using this

lemma topicMeanPercentage_ok (s : UserState) (topic : String)
    (hres : ∀ r ∈ s.quizResults, ∃ p, r.percentage = some p ∧ 0 ≤ p ∧ p ≤ 100)
    (hne : (s.quizResults.filter fun r =>
        match alookup s.quizzes r.quizId with
        | some q => q.topic = topic
        | none => false).length ≠ 0) :
    ∃ qa, topicMeanPercentage s topic = some qa ∧ 0 ≤ qa ∧ qa ≤ 100 := by
  have hsub : ∀ r ∈ (s.quizResults.filter fun r =>
      match alookup s.quizzes r.quizId with
      | some q => q.topic = topic
      | none => false), ∃ p, r.percentage = some p ∧ 0 ≤ p ∧ p ≤ 100 :=
    fun r hr => hres r (List.mem_of_mem_filter hr)
  obtain ⟨tsum, hts, h0, hbound⟩ := foldl_jsAdd_bounds _ 0 hsub
  have hlenq : (((s.quizResults.filter fun r =>
      match alookup s.quizzes r.quizId with
      | some q => q.topic = topic
      | none => false).length : ℚ)) ≠ 0 := Nat.cast_ne_zero.mpr hne
  have hlenpos : (0:ℚ) < ((s.quizResults.filter fun r =>
      match alookup s.quizzes r.quizId with
      | some q => q.topic = topic
      | none => false).length : ℚ) :=
    lt_of_le_of_ne (Nat.cast_nonneg _) (Ne.symm hlenq)
  refine ⟨tsum / ((s.quizResults.filter fun r =>
      match alookup s.quizzes r.quizId with
      | some q => q.topic = topic
      | none => false).length : ℚ), ?_, ?_, ?_⟩
  · show jsDiv ((s.quizResults.filter fun r =>
        match alookup s.quizzes r.quizId with
        | some q => q.topic = topic
        | none => false).foldl (fun sum r => jsAdd sum r.percentage) (some 0))
      (some ((s.quizResults.filter fun r =>
        match alookup s.quizzes r.quizId with
        | some q => q.topic = topic
        | none => false).length : ℚ)) = _
    rw [hts]
    simp [jsDiv, hlenq]
  · exact div_nonneg (by linarith) (Nat.cast_nonneg _)
  · rw [div_le_iff₀ hlenpos]
    linarith

lemma stateInv_default : StateInv createDefaultState :=
  ⟨fun k q hk => by simp [createDefaultState, alookup] at hk,
   fun r hr => by simp [createDefaultState] at hr,
   fun tp htp => by simp [createDefaultState] at htp⟩

lemma stateInv_createSession (s : UserState) (sess : StudySession) (h : StateInv s) :
    StateInv (createSession s sess) := by
  obtain ⟨hq, hr, ht⟩ := h
  exact ⟨fun k quiz hk => hq k quiz hk, fun r hr' => hr r hr', fun tp htp => ht tp htp⟩

lemma stateInv_saveQuiz (s : UserState) (quiz : Quiz) (hok : QuizOk quiz) (h : StateInv s) :
    StateInv (saveQuiz s quiz) := by
  obtain ⟨hq, hr, ht⟩ := h
  refine ⟨?_, fun r hr' => hr r hr', fun tp htp => ht tp htp⟩
  intro k q hk
  rw [show (saveQuiz s quiz).quizzes = aset s.quizzes quiz.id quiz from rfl,
    alookup_aset] at hk
  by_cases hkid : k = quiz.id
  · rw [if_pos hkid] at hk
    simp only [Option.some.injEq] at hk
    subst hk
    exact hok
  · rw [if_neg hkid] at hk
    exact hq k q hk

lemma updateTopicProgress_topics_eq (p₁ p₂ : ProgressData) (topic : String) (d n : ℚ)
    (h : p₁.topicsStudied = p₂.topicsStudied) :
    (updateTopicProgress p₁ topic d n).topicsStudied
      = (updateTopicProgress p₂ topic d n).topicsStudied := by
  rcases hf : findTopic p₂.topicsStudied topic with _ | tp0
  · rw [updateTopicProgress_topics_none p₂ _ _ _ hf,
      updateTopicProgress_topics_none p₁ _ _ _ (by rw [h]; exact hf), h]
  · rw [updateTopicProgress_topics_found p₂ _ _ _ tp0 hf,
      updateTopicProgress_topics_found p₁ _ _ _ tp0 (by rw [h]; exact hf), h]

lemma completeSession_topics_shape (s : UserState) (sid : String) (now : ℚ)
    (sess : StudySession) (h : alookup s.sessions sid = some sess) :
    (completeSession s sid now).progress.topicsStudied
      = (updateTopicProgress s.progress sess.topic
          ((now - sess.startTime) / 1000 / 60) now).topicsStudied := by
  have h1 : (completeSession s sid now).progress.topicsStudied
      = (updateTopicProgress
          { s.progress with
            totalStudyTime := s.progress.totalStudyTime + (now - sess.startTime) / 1000 / 60 }
          sess.topic ((now - sess.startTime) / 1000 / 60) now).topicsStudied := by
    simp [completeSession, h]
  rw [h1]
  exact updateTopicProgress_topics_eq _ s.progress _ _ _ rfl

lemma stateInv_completeSession (s : UserState) (sid : String) (now : ℚ) (h : StateInv s) :
    StateInv (completeSession s sid now) := by
  obtain ⟨hq, hr, ht⟩ := h
  rcases hsess : alookup s.sessions sid with _ | sess
  · rw [show completeSession s sid now = s from by simp [completeSession, hsess]]
    exact ⟨hq, hr, ht⟩
  · refine ⟨?_, ?_, ?_⟩
    · intro k quiz hk
      rw [completeSession_quizzes] at hk
      exact hq k quiz hk
    · intro r hr'
      rw [completeSession_quizResults] at hr'
      exact hr r hr'
    · intro tp htp
      rw [completeSession_topics_shape s sid now sess hsess] at htp
      rcases hf : findTopic s.progress.topicsStudied sess.topic with _ | tp0
      · rw [updateTopicProgress_topics_none _ _ _ _ hf] at htp
        rcases List.mem_append.mp htp with hmem | hmem
        · exact ht tp hmem
        · have htp' : tp = bumpTopic (newTopicProgress sess.topic now)
              ((now - sess.startTime) / 1000 / 60) now := by simpa using hmem
          subst htp'
          exact ⟨0, rfl, le_refl 0, by norm_num, rfl⟩
      · rw [updateTopicProgress_topics_found _ _ _ _ tp0 hf] at htp
        rcases mem_updateFirstTopic htp with hmem | ⟨tpo, hmo, rfl⟩
        · exact ht tp hmem
        · obtain ⟨qa, hqa, h0, h100, _⟩ := ht tpo hmo
          exact ⟨qa, hqa, h0, h100, rfl⟩

lemma stateInv_submitStep (s : UserState) (qid : String) (answers : List (String × String))
    (now : ℚ) (h : StateInv s) :
    StateInv (stepOp s (Op.submitQuiz qid answers now)) := by
  obtain ⟨hq, hr, ht⟩ := h
  rcases hsq : alookup s.quizzes qid with _ | quiz
  · rw [show stepOp s (Op.submitQuiz qid answers now) = s from by
      simp [stepOp, submitQuiz_none s qid answers now hsq]]
    exact ⟨hq, hr, ht⟩
  · have hok := hq qid quiz hsq
    have hstep : stepOp s (Op.submitQuiz qid answers now)
        = updateTopicQuizAverage
            (submitMidState s quiz (submitResult qid quiz answers now) now) quiz.topic
            (submitResult qid quiz answers now).percentage := by
      simp [stepOp, submitQuiz_some s qid quiz answers now hsq]
    rw [hstep]
    obtain ⟨pR, hpR, hpR0, hpR100⟩ := submitResult_percentage_ok qid quiz answers now hok
    have hmidres : ResultsOk (submitMidState s quiz (submitResult qid quiz answers now) now) := by
      intro r' hr'
      rcases List.mem_append.mp hr' with hm | hm
      · exact hr r' hm
      · have hreq : r' = submitResult qid quiz answers now := by simpa using hm
        subst hreq
        exact ⟨pR, hpR, hpR0, hpR100⟩
    refine ⟨?_, ?_, ?_⟩
    · intro k q hk
      rw [updateTopicQuizAverage_quizzes] at hk
      exact hq k q hk
    · intro r' hr'
      rw [updateTopicQuizAverage_quizResults] at hr'
      exact hmidres r' hr'
    · intro tp htp
      rcases hf : findTopic (submitMidState s quiz (submitResult qid quiz answers now)
          now).progress.topicsStudied quiz.topic with _ | tp0
      · rw [updateTopicQuizAverage_eq_none _ _ _ hf] at htp
        exact ht tp htp
      · rw [updateTopicQuizAverage_topics_found _ _ _ tp0 hf] at htp
        rcases mem_updateFirstTopic htp with hmem | ⟨tpo, _hmo, rfl⟩
        · exact ht tp hmem
        · have hmemr : submitResult qid quiz answers now
              ∈ (submitMidState s quiz (submitResult qid quiz answers now) now).quizResults.filter
                (fun rr =>
                  match alookup (submitMidState s quiz (submitResult qid quiz answers now)
                      now).quizzes rr.quizId with
                  | some q => q.topic = quiz.topic
                  | none => false) := by
            rw [List.mem_filter]
            constructor
            · exact List.mem_append_right _ (by simp)
            · show (match alookup s.quizzes qid with
                | some q => decide (q.topic = quiz.topic)
                | none => false) = true
              rw [hsq]
              simp
          have hlen : ((submitMidState s quiz (submitResult qid quiz answers now)
              now).quizResults.filter
                (fun rr =>
                  match alookup (submitMidState s quiz (submitResult qid quiz answers now)
                      now).quizzes rr.quizId with
                  | some q => q.topic = quiz.topic
                  | none => false)).length ≠ 0 :=
            Nat.pos_iff_ne_zero.mp (List.length_pos.mpr (List.ne_nil_of_mem hmemr))
          obtain ⟨qa, hqa, hqa0, hqa100⟩ :=
            topicMeanPercentage_ok
              (submitMidState s quiz (submitResult qid quiz answers now) now) quiz.topic
              hmidres hlen
          exact ⟨qa, hqa, hqa0, hqa100, rfl⟩

lemma stateInv_runOps : ∀ (ops : List Op) (s : UserState), StateInv s → OpsOk ops →
    StateInv (runOps s ops) := by
  intro ops
  induction ops with
  | nil =>
    intro s h _
    simpa [runOps] using h
  | cons op rest ih =>
    intro s h hops
    have hops' : OpsOk rest := by
      intro q hq'
      cases op with
      | saveQuiz q0 => exact hops q (List.mem_cons_of_mem _ hq')
      | createSession sess => exact hops q hq'
      | completeSession sid now => exact hops q hq'
      | submitQuiz qid answers now => exact hops q hq'
    have hstep : StateInv (stepOp s op) := by
      cases op with
      | createSession sess => exact stateInv_createSession s sess h
      | completeSession sid now => exact stateInv_completeSession s sid now h
      | saveQuiz q0 => exact stateInv_saveQuiz s q0 (hops q0 (List.mem_cons_self _ _)) h
      | submitQuiz qid answers now => exact stateInv_submitStep s qid answers now h
    exact ih (stepOp s op) hstep hops'

lemma completeSession_findTopic_self (s : UserState) (sid : String) (now : ℚ)
    (sess : StudySession) (h : alookup s.sessions sid = some sess) (tp : TopicProgress)
    (hf : findTopic s.progress.topicsStudied sess.topic = some tp) :
    findTopic (completeSession s sid now).progress.topicsStudied sess.topic
      = some (bumpTopic tp ((now - sess.startTime) / 1000 / 60) now) := by
  rw [completeSession_topics_shape s sid now sess h,
    updateTopicProgress_topics_found _ _ _ _ tp hf]
  exact findTopic_updateFirstTopic_self (bumpTopic · ((now - sess.startTime) / 1000 / 60) now)
    (fun _ => rfl) hf

lemma completeSession_findTopic_ne (s : UserState) (sid : String) (now : ℚ)
    (sess : StudySession) (h : alookup s.sessions sid = some sess) (T : String)
    (hne : T ≠ sess.topic) :
    findTopic (completeSession s sid now).progress.topicsStudied T
      = findTopic s.progress.topicsStudied T := by
  rw [completeSession_topics_shape s sid now sess h]
  rcases hf : findTopic s.progress.topicsStudied sess.topic with _ | tp0
  · rw [updateTopicProgress_topics_none _ _ _ _ hf]
    rcases hfT : findTopic s.progress.topicsStudied T with _ | tpT
    · rw [findTopic_append_none _ hfT]
      have hxt : ¬ (bumpTopic (newTopicProgress sess.topic now)
          ((now - sess.startTime) / 1000 / 60) now).topic = T := by
        show ¬ sess.topic = T
        exact fun he => hne he.symm
      simp [hxt]
    · exact findTopic_append_some _ hfT
  · rw [updateTopicProgress_topics_found _ _ _ _ tp0 hf]
    exact findTopic_updateFirstTopic_ne (bumpTopic · ((now - sess.startTime) / 1000 / 60) now)
      (fun _ => rfl) hne

/-- C2 (amended): over any operation sequence (from the fresh state) whose
saved quizzes have nonnegative points and a positive total, every topic's
`masteryLevel` is a finite value in [0,100] and always equals
`min(100, sessionsCount·10 + quizAverage·0.5)` on the entry's own fields; and
recording one more completed session never decreases any topic's mastery level.
It is NOT monotone under further quiz results — a low percentage lowers the
topic's quiz average and with it the recomputed mastery level (see the
counterexample). -/
theorem mastery_bounds_and_session_monotonicity (ops : List Op) (hops : OpsOk ops) :
    (∀ tp ∈ (runOps createDefaultState ops).progress.topicsStudied,
      (∃ m, tp.masteryLevel = some m ∧ 0 ≤ m ∧ m ≤ 100)
      ∧ tp.masteryLevel = recomputeMastery tp.sessionsCount tp.quizAverage)
    ∧ (∀ T m sid now, masteryOf (runOps createDefaultState ops) T = some m →
        ∃ m', masteryOf (completeSession (runOps createDefaultState ops) sid now) T = some m'
          ∧ m ≤ m') := by
  obtain ⟨hq, hr, ht⟩ := stateInv_runOps ops createDefaultState stateInv_default hops
  constructor
  · intro tp htp
    obtain ⟨qa, hqa, h0, _h100, hml⟩ := ht tp htp
    refine ⟨?_, hml⟩
    obtain ⟨m, hm, hm0, hm100⟩ := recomputeMastery_bounds tp.sessionsCount qa h0
    refine ⟨m, ?_, hm0, hm100⟩
    rw [hml, hqa]
    exact hm
  · intro T m sid now hm
    simp only [masteryOf] at hm
    rcases hf : findTopic (runOps createDefaultState ops).progress.topicsStudied T with _ | tp
    · rw [hf] at hm
      exact absurd (hm : (none : Option ℚ) = some m) (by simp)
    · rw [hf] at hm
      have hm' : tp.masteryLevel = some m := hm
      obtain ⟨hfmem, _hftopic⟩ := findTopic_mem hf
      obtain ⟨qa, hqa, h0, _h100, hml⟩ := ht tp hfmem
      have hmval : min 100 ((tp.sessionsCount : ℚ) * 10 + qa * (1 / 2)) = m := by
        have h2 := hm'
        rw [hml, hqa, recomputeMastery_some] at h2
        exact Option.some.inj h2
      rcases hsess : alookup (runOps createDefaultState ops).sessions sid with _ | sess
      · refine ⟨m, ?_, le_rfl⟩
        rw [show completeSession (runOps createDefaultState ops) sid now
            = runOps createDefaultState ops from by simp [completeSession, hsess]]
        simp only [masteryOf]
        rw [hf]
        exact hm'
      · by_cases hTU : T = sess.topic
        · have hfU : findTopic (runOps createDefaultState ops).progress.topicsStudied
              sess.topic = some tp := by
            rw [← hTU]
            exact hf
          have hfind := completeSession_findTopic_self _ sid now sess hsess tp hfU
          refine ⟨min 100 (((tp.sessionsCount + 1 : ℕ) : ℚ) * 10 + qa * (1 / 2)), ?_, ?_⟩
          · simp only [masteryOf]
            rw [hTU, hfind]
            show (bumpTopic tp ((now - sess.startTime) / 1000 / 60) now).masteryLevel = _
            rw [show (bumpTopic tp ((now - sess.startTime) / 1000 / 60) now).masteryLevel
                = recomputeMastery (tp.sessionsCount + 1) tp.quizAverage from rfl, hqa,
              recomputeMastery_some]
          · rw [← hmval]
            exact recomputeMastery_mono tp.sessionsCount qa
        · refine ⟨m, ?_, le_rfl⟩
          simp only [masteryOf]
          rw [completeSession_findTopic_ne _ sid now sess hsess T hTU, hf]
          exact hm'

/-- The session whose completion creates topic "T"'s progress entry. -/
def c2sess : StudySession :=
  { id := "s-t1", topic := "T", duration := 1, difficulty := "beginner",
    startTime := 0, endTime := none, status := "active" }

/-- First quiz on topic "T" (answered correctly in the counterexample run). -/
def c2quizA : Quiz :=
  { id := "qa", topic := "T", difficulty := "beginner",
    questions := [{ id := "q1", question := "?", type := "short-answer", options := none,
                    correctAnswer := "a", explanation := "E", points := 10 }],
    createdAt := 0 }

/-- Second quiz on topic "T" (answered wrongly in the counterexample run). -/
def c2quizB : Quiz :=
  { id := "qb", topic := "T", difficulty := "beginner",
    questions := [{ id := "q1", question := "?", type := "short-answer", options := none,
                    correctAnswer := "a", explanation := "E", points := 10 }],
    createdAt := 0 }

/-- One completed session plus a perfect quiz: mastery reaches
min(100, 1·10 + 100·0.5) = 60. -/
def c2opsHigh : List Op :=
  [.createSession c2sess, .completeSession "s-t1" 60000, .saveQuiz c2quizA,
   .submitQuiz "qa" [("q1", "A")] 70000]

/-- A further quiz on the same topic, answered wrongly. -/
def c2opsDrop : List Op :=
  [.saveQuiz c2quizB, .submitQuiz "qb" [("q1", "wrong")] 80000]

/-- C2 counterexample: after a completed session and a 100% quiz, topic "T"'s
mastery level is 60; recording one further quiz result (0%) drops the topic's
quiz average to 50 and the recomputed mastery level to 35 < 60 — masteryLevel
is not monotone under further quiz results on the topic. -/
theorem mastery_decreases_counterexample :
    masteryOf (runOps createDefaultState c2opsHigh) "T" = some 60
    ∧ masteryOf (runOps (runOps createDefaultState c2opsHigh) c2opsDrop) "T" = some 35
    ∧ ¬ (60 : ℚ) ≤ 35 := by
  refine ⟨?_, ?_, by norm_num⟩
  · norm_num [c2opsHigh, runOps, stepOp, createSession, completeSession, updateTopicProgress,
      bumpTopic, findTopic, newTopicProgress, recomputeMastery, jsMin, jsAdd, jsMul, jsDiv,
      aset, alookup, saveQuiz, submitQuiz, quizScore, quizMaxScore, updateTopicQuizAverage,
      masteryOf, createDefaultState, c2sess, c2quizA, min_def, updateFirstTopic,
      show lowerStr "A" = lowerStr "a" from by decide]
  · norm_num [c2opsHigh, c2opsDrop, runOps, stepOp, createSession, completeSession,
      updateTopicProgress, bumpTopic, findTopic, newTopicProgress, recomputeMastery, jsMin,
      jsAdd, jsMul, jsDiv, aset, alookup, saveQuiz, submitQuiz, quizScore, quizMaxScore,
      updateTopicQuizAverage, masteryOf, createDefaultState, c2sess, c2quizA, c2quizB,
      min_def, updateFirstTopic, show lowerStr "A" = lowerStr "a" from by decide,
      show ¬ lowerStr "wrong" = lowerStr "a" from by decide,
      show ¬ ("qa" : String) = "qb" from by decide, show ¬ ("qb" : String) = "qa" from by decide]

/-- Witness for C2's amended claim along the well-formed sequence `c2opsHigh`,
whose single saved quiz has nonnegative points and a positive total. -/
theorem mastery_bounds_and_session_monotonicity_witness :
    OpsOk c2opsHigh
    ∧ ((∀ tp ∈ (runOps createDefaultState c2opsHigh).progress.topicsStudied,
        (∃ m, tp.masteryLevel = some m ∧ 0 ≤ m ∧ m ≤ 100)
        ∧ tp.masteryLevel = recomputeMastery tp.sessionsCount tp.quizAverage)
      ∧ (∀ T m sid now, masteryOf (runOps createDefaultState c2opsHigh) T = some m →
          ∃ m', masteryOf (completeSession (runOps createDefaultState c2opsHigh) sid now) T
              = some m' ∧ m ≤ m'))
    ∧ masteryOf (runOps createDefaultState c2opsHigh) "T" = some 60 := by
  have hops : OpsOk c2opsHigh := by
    intro q hq
    have hq' : q = c2quizA := by
      simpa [c2opsHigh, savedQuizzes] using hq
    subst hq'
    refine ⟨by decide, ?_⟩
    have h10 : quizMaxScore c2quizA = 10 := by
      simp [quizMaxScore, c2quizA]
    rw [h10]
    norm_num
  refine ⟨hops, mastery_bounds_and_session_monotonicity c2opsHigh hops, ?_⟩
  norm_num [c2opsHigh, runOps, stepOp, createSession, completeSession, updateTopicProgress,
    bumpTopic, findTopic, newTopicProgress, recomputeMastery, jsMin, jsAdd, jsMul, jsDiv,
    aset, alookup, saveQuiz, submitQuiz, quizScore, quizMaxScore, updateTopicQuizAverage,
    masteryOf, createDefaultState, c2sess, c2quizA, min_def, updateFirstTopic,
    show lowerStr "A" = lowerStr "a" from by decide]
